import Mathlib

/-!
# Verification of the word-chain puzzle repository

This file gives a shallow embedding of the core logic of the word-chain
repository and proves (or refutes) the frozen claims about it.

The embedded parts are:

* the rate limiter `checkRateLimit` of `src/app/api/wordchain/route.ts`;
* the HTTP generation handler `GET` of `src/app/api/wordchain/route.ts`
  (called `GET_route` below) and the variant handler of the unnamed source
  file `part_001` (called `GET_v1` below), together with models of the
  JavaScript builtins they use (`JSON.parse`, `parseInt`,
  `String.prototype.trim`/`toUpperCase`, and the two regular expressions);
* the client puzzle state machine of the unnamed source file `part_002`
  (`handleKeyPress`, `handleBackspace`, `handleSubmitWord`, the failure
  reversion timeout, the derived `isGameComplete`/`isGameOver` flags and the
  session initialization), with strings modelled as `List Char`.

Presentation-only state (animation flags, audio, CSS) is not modelled; the
spec itself places it outside the core.
-/

namespace WordChain

/-! ## JavaScript string primitives, modelled over `List Char`

JavaScript strings are modelled as `List Char`.  `String.prototype.trim`
strips the ASCII whitespace characters (the model ignores the non-ASCII
members of the JS `WhiteSpace` production); `String.prototype.toUpperCase`
is modelled as character-wise ASCII `Char.toUpper`. -/

def isJsWs (c : Char) : Bool :=
  decide (c.toNat = 32 ∨ c.toNat = 9 ∨ c.toNat = 10 ∨ c.toNat = 13 ∨
    c.toNat = 11 ∨ c.toNat = 12)

def jsTrim (s : List Char) : List Char :=
  ((s.dropWhile isJsWs).reverse.dropWhile isJsWs).reverse

def jsToUpper (s : List Char) : List Char := s.map Char.toUpper

/-! ## The rate limiter (`checkRateLimit`, route.ts lines 28-65)

The store keeps one record per caller key; the code reads and writes only
the checked key, so the evolution of a single key's record is modelled.
`Option RateRecord` is the record currently stored for the caller (`none`
when no record exists), `now` is `Date.now()` in milliseconds. -/

structure RateRecord where
  count : Nat
  resetTime : Nat
deriving Repr, DecidableEq

/-- `RATE_LIMIT.maxRequests` -/
def maxRequests : Nat := 10

/-- `RATE_LIMIT.windowMs` -/
def windowMs : Nat := 15 * 60 * 1000

/-- The value returned by `checkRateLimit`. -/
structure RateCheck where
  allowed : Bool
  remaining : Nat
  resetTime : Nat
deriving Repr, DecidableEq

/-- `checkRateLimit` of route.ts: returns the result and the record stored
for the key afterwards (on rejection the record is left unchanged). -/
def checkRateLimit (now : Nat) (store : Option RateRecord) :
    RateCheck × RateRecord :=
  match store with
  | none =>
    (⟨true, maxRequests - 1, now + windowMs⟩, ⟨1, now + windowMs⟩)
  | some record =>
    if record.resetTime ≤ now then
      (⟨true, maxRequests - 1, now + windowMs⟩, ⟨1, now + windowMs⟩)
    else if maxRequests ≤ record.count then
      (⟨false, 0, record.resetTime⟩, record)
    else
      (⟨true, maxRequests - (record.count + 1), record.resetTime⟩,
        ⟨record.count + 1, record.resetTime⟩)

/-- Runs `checkRateLimit` once per request time in the list, threading the
stored record, and collects the `allowed` results in order. -/
def runRequests : List Nat → Option RateRecord → List Bool × Option RateRecord
  | [], store => ([], store)
  | t :: ts, store =>
    let p := checkRateLimit t store
    let q := runRequests ts (some p.2)
    (p.1.allowed :: q.1, q.2)

theorem runRequests_nil (store : Option RateRecord) :
    runRequests [] store = ([], store) := rfl

theorem runRequests_cons (t : Nat) (ts : List Nat) (store : Option RateRecord) :
    runRequests (t :: ts) store =
      ((checkRateLimit t store).1.allowed ::
          (runRequests ts (some (checkRateLimit t store).2)).1,
        (runRequests ts (some (checkRateLimit t store).2)).2) := rfl

theorem checkRateLimit_none (now : Nat) :
    checkRateLimit now none =
      (⟨true, maxRequests - 1, now + windowMs⟩, ⟨1, now + windowMs⟩) := rfl

theorem checkRateLimit_expired (now : Nat) (r : RateRecord)
    (h : r.resetTime ≤ now) :
    checkRateLimit now (some r) =
      (⟨true, maxRequests - 1, now + windowMs⟩, ⟨1, now + windowMs⟩) := by
  simp only [checkRateLimit]
  rw [if_pos h]

theorem checkRateLimit_reject (now : Nat) (r : RateRecord)
    (h1 : now < r.resetTime) (h2 : maxRequests ≤ r.count) :
    checkRateLimit now (some r) = (⟨false, 0, r.resetTime⟩, r) := by
  simp only [checkRateLimit]
  rw [if_neg (Nat.not_le.mpr h1), if_pos h2]

theorem checkRateLimit_incr (now : Nat) (r : RateRecord)
    (h1 : now < r.resetTime) (h2 : r.count < maxRequests) :
    checkRateLimit now (some r) =
      (⟨true, maxRequests - (r.count + 1), r.resetTime⟩,
        ⟨r.count + 1, r.resetTime⟩) := by
  simp only [checkRateLimit]
  rw [if_neg (Nat.not_le.mpr h1), if_neg (Nat.not_le.mpr h2)]

/-- Within a live window (every request time is before the reset time),
starting from a record with count `c` (`1 ≤ c ≤ 10`), the `j`-th further
request is allowed exactly when `c + j < 10`, and the final count is
`min (c + number of requests) 10`. -/
theorem runRequests_within_window (ts : List Nat) (c R : Nat)
    (hc1 : 1 ≤ c) (hc2 : c ≤ maxRequests) (hts : ∀ t ∈ ts, t < R) :
    runRequests ts (some ⟨c, R⟩) =
      ((List.range ts.length).map (fun j => decide (c + j < maxRequests)),
        some ⟨min (c + ts.length) maxRequests, R⟩) := by
  induction ts generalizing c with
  | nil =>
    simp [runRequests, Nat.min_eq_left hc2]
  | cons t ts ih =>
    have ht : t < R := hts t (List.mem_cons_self t ts)
    have htail : ∀ u ∈ ts, u < R := fun u hu => hts u (List.mem_cons_of_mem t hu)
    by_cases hfull : maxRequests ≤ c
    · have hc10 : c = maxRequests := le_antisymm hc2 hfull
      subst hc10
      rw [runRequests_cons, checkRateLimit_reject t ⟨maxRequests, R⟩ ht hfull]
      rw [ih maxRequests hc1 le_rfl htail]
      simp only [Prod.mk.injEq, List.length_cons, Option.some.injEq,
        RateRecord.mk.injEq, and_true]
      refine ⟨?_, by omega⟩
      rw [List.range_succ_eq_map, List.map_cons, List.map_map]
      simp only [List.cons.injEq]
      refine ⟨by simp [maxRequests], ?_⟩
      apply List.map_congr_left
      intro j _
      simp only [Function.comp_apply, decide_eq_decide]
      omega
    · have hlt : c < maxRequests := lt_of_not_ge hfull
      rw [runRequests_cons, checkRateLimit_incr t ⟨c, R⟩ ht hlt]
      rw [ih (c + 1) (by omega) hlt htail]
      simp only [Prod.mk.injEq, List.length_cons, Option.some.injEq,
        RateRecord.mk.injEq, and_true]
      refine ⟨?_, by omega⟩
      rw [List.range_succ_eq_map, List.map_cons, List.map_map]
      congr 1
      · exact (decide_eq_true (by omega : c + 0 < maxRequests)).symm
      apply List.map_congr_left
      intro j _
      simp only [Function.comp_apply, decide_eq_decide]
      omega

/-- C1: a fresh or expired key starts a window at count 1 and is allowed; a
live record below the max is incremented and allowed; a live record at the
max is rejected without incrementing.  Consequently, of a burst of requests
inside one window starting from no record, exactly the first 10 are allowed
(the 11th onwards rejected), and once the window's reset time has passed the
next request starts a fresh window with count 1 (allowing 10 more). -/
theorem rate_limit_claim
    (ts : List Nat) (t0 : Nat) (hts : ∀ t ∈ ts, t < t0 + windowMs)
    (nowA nowB nowC nowD : Nat) (rB rC : RateRecord)
    (hB1 : nowB < rB.resetTime) (hB2 : rB.count < maxRequests)
    (hC1 : nowC < rC.resetTime) (hC2 : maxRequests ≤ rC.count)
    (hD : t0 + windowMs ≤ nowD) :
    checkRateLimit nowA none =
      (⟨true, maxRequests - 1, nowA + windowMs⟩, ⟨1, nowA + windowMs⟩) ∧
    checkRateLimit nowB (some rB) =
      (⟨true, maxRequests - (rB.count + 1), rB.resetTime⟩,
        ⟨rB.count + 1, rB.resetTime⟩) ∧
    checkRateLimit nowC (some rC) = (⟨false, 0, rC.resetTime⟩, rC) ∧
    runRequests (t0 :: ts) none =
      ((List.range (ts.length + 1)).map (fun j => decide (j < maxRequests)),
        some ⟨min (ts.length + 1) maxRequests, t0 + windowMs⟩) ∧
    checkRateLimit nowD (some ⟨min (ts.length + 1) maxRequests, t0 + windowMs⟩) =
      (⟨true, maxRequests - 1, nowD + windowMs⟩, ⟨1, nowD + windowMs⟩) := by
  refine ⟨rfl, checkRateLimit_incr nowB rB hB1 hB2,
    checkRateLimit_reject nowC rC hC1 hC2, ?_, ?_⟩
  · rw [runRequests_cons, checkRateLimit_none]
    rw [runRequests_within_window ts 1 (t0 + windowMs) le_rfl
      (by simp [maxRequests]) hts]
    simp only [Prod.mk.injEq, Option.some.injEq, RateRecord.mk.injEq, and_true]
    refine ⟨?_, by omega⟩
    rw [List.range_succ_eq_map, List.map_cons, List.map_map]
    simp only [List.cons.injEq]
    refine ⟨by simp [maxRequests], ?_⟩
    apply List.map_congr_left
    intro j _
    simp only [Function.comp_apply, decide_eq_decide]
    omega
  · exact checkRateLimit_expired nowD _ hD

/-- Witness for `rate_limit_claim`: a concrete burst of 12 requests at time
0 from one caller, then one request after the window. -/
theorem rate_limit_claim_witness :
    checkRateLimit 5 none =
      (⟨true, maxRequests - 1, 5 + windowMs⟩, ⟨1, 5 + windowMs⟩) ∧
    checkRateLimit 7 (some ⟨4, 100⟩) =
      (⟨true, maxRequests - (4 + 1), 100⟩, ⟨4 + 1, 100⟩) ∧
    checkRateLimit 7 (some ⟨10, 100⟩) = (⟨false, 0, 100⟩, ⟨10, 100⟩) ∧
    runRequests (0 :: List.replicate 11 0) none =
      ((List.range (11 + 1)).map (fun j => decide (j < maxRequests)),
        some ⟨min (11 + 1) maxRequests, 0 + windowMs⟩) ∧
    checkRateLimit 900000 (some ⟨min (11 + 1) maxRequests, 0 + windowMs⟩) =
      (⟨true, maxRequests - 1, 900000 + windowMs⟩, ⟨1, 900000 + windowMs⟩) := by
  have h := rate_limit_claim (List.replicate 11 0) 0
    (by intro t ht; simp only [List.eq_of_mem_replicate ht]; decide)
    5 7 7 900000 ⟨4, 100⟩ ⟨10, 100⟩
    (by decide) (by decide) (by decide) (by decide) (by decide)
  simpa using h

/-! ## The puzzle state machine (unnamed source file `part_002`)

Strings are `List Char`; a `userInput` cell holds a (possibly empty)
JavaScript string, so `userInput : List (List Char)`.  Presentation-only
state of the component (`droppingHeart`, `screenShake`, `timer`,
`starAnimations`, the loading/error flags) is not modelled. -/

/-- The `WordStatus` union type. -/
inductive WStatus where
  | unsolved
  | solving
  | solved
  | failed
deriving Repr, DecidableEq, Inhabited

/-- The `WordWithStatus` interface (with `hintsRevealed`, as in `part_002`). -/
structure WordSlot where
  word : List Char
  status : WStatus
  userInput : List (List Char)
  currentIndex : Nat
  hintsRevealed : Nat
deriving Repr, DecidableEq, Inhabited

/-- The game-relevant component state: the `words`, `lives`,
`selectedWordIndex` and `totalGuesses` `useState` cells. -/
structure Session where
  words : List WordSlot
  lives : Int
  selectedWordIndex : Nat
  totalGuesses : Nat
deriving Repr, DecidableEq, Inhabited

/-- The input capacity of a slot (`Array(9)` in `part_002`). -/
def capacity : Nat := 9

/-- The idiom `prev.map((word, index) => index === i ? f(word) : word)`:
replace position `i` by its image under `f`, leave everything else alone
(and do nothing when `i` is out of range, as the JS `map` would). -/
def updateSlot : List WordSlot → Nat → (WordSlot → WordSlot) → List WordSlot
  | [], _, _ => []
  | w :: ws, 0, f => f w :: ws
  | w :: ws, i + 1, f => w :: updateSlot ws i f

/-- `words[i]` under an in-bounds guard. -/
def slotAt (s : Session) (i : Nat) : WordSlot := s.words.getD i default

/-- `currentWord.userInput.join('').trim()`. -/
def guessOf (w : WordSlot) : List Char := jsTrim w.userInput.flatten

/-- `handleKeyPress` of `part_002` (lines 174-193). -/
def handleKeyPress (s : Session) (key : Char) : Session :=
  if s.selectedWordIndex < 1 ∨ s.words.length - 1 ≤ s.selectedWordIndex then s
  else
    if (slotAt s s.selectedWordIndex).status = .solved ∨
        capacity ≤ (slotAt s s.selectedWordIndex).currentIndex then s
    else
      { s with
        words := updateSlot s.words s.selectedWordIndex (fun w =>
          { w with
            userInput := w.userInput.set w.currentIndex [key.toUpper]
            currentIndex := w.currentIndex + 1
            status := .solving }) }

/-- `handleBackspace` of `part_002` (lines 196-216); the no-erase floor is
`minIndex = Math.max(1, hintsRevealed)`. -/
def handleBackspace (s : Session) : Session :=
  if s.selectedWordIndex < 1 ∨ s.words.length - 1 ≤ s.selectedWordIndex then s
  else
    if (slotAt s s.selectedWordIndex).status = .solved ∨
        (slotAt s s.selectedWordIndex).currentIndex ≤
          max 1 (slotAt s s.selectedWordIndex).hintsRevealed then s
    else
      { s with
        words := updateSlot s.words s.selectedWordIndex (fun w =>
          { w with
            userInput := w.userInput.set (w.currentIndex - 1) []
            currentIndex := w.currentIndex - 1 }) }

/-- The input array built on a failed submit: `Array(9).fill('')` with the
first `nh` cells overwritten by the solution's characters (writing past
index 8 grows the JS array, hence the `max capacity nh` length). -/
def failInput (word : List Char) (nh : Nat) : List (List Char) :=
  (List.range (max capacity nh)).map
    (fun j => if j < nh then (word.drop j).take 1 else [])

/-- `handleSubmitWord` of `part_002` (lines 219-280), without the
animation-only `setDroppingHeart`/`setScreenShake` effects; the delayed
failure reversion is `revertFailed` below. -/
def handleSubmitWord (s : Session) (index : Nat) : Session :=
  if index < 1 ∨ s.words.length - 1 ≤ index then s
  else
    if guessOf (slotAt s index) = (slotAt s index).word then
      { s with
        totalGuesses := s.totalGuesses + 1
        words := updateSlot s.words index (fun w => { w with status := .solved })
        selectedWordIndex :=
          if index < s.words.length - 2 then index + 1 else s.selectedWordIndex }
    else
      { s with
        totalGuesses := s.totalGuesses + 1
        words := updateSlot s.words index (fun w =>
          { w with
            status := .failed
            userInput := failInput w.word (min (w.hintsRevealed + 1) w.word.length)
            currentIndex := min (w.hintsRevealed + 1) w.word.length
            hintsRevealed := min (w.hintsRevealed + 1) w.word.length })
        lives := s.lives - 1 }

/-- The delayed `setTimeout` callback of `handleSubmitWord`: the slot at
`index` reverts from `failed` to `unsolved`. -/
def revertFailed (s : Session) (index : Nat) : Session :=
  { s with
    words := updateSlot s.words index (fun w =>
      if w.status = .failed then { w with status := .unsolved } else w) }

/-- One slot of the initial state (`fetchWordChain`, `part_002` lines
57-73); `n` is the chain length, `i` the slot index, `w` the raw word from
the response.  The pre-filled hint cell is `word[0]` of the raw word, while
the stored solution is uppercased. -/
def initSlot (n i : Nat) (w : List Char) : WordSlot :=
  { word := jsToUpper w
    status := if i = 0 ∨ i = n - 1 then .solved else .unsolved
    userInput :=
      if 0 < i ∧ i < n - 1 then (List.replicate capacity []).set 0 (w.take 1)
      else List.replicate capacity []
    currentIndex := if 0 < i ∧ i < n - 1 then 1 else 0
    hintsRevealed := if 0 < i ∧ i < n - 1 then 1 else 0 }

def initWordsAux (n : Nat) : Nat → List (List Char) → List WordSlot
  | _, [] => []
  | i, w :: ws => initSlot n i w :: initWordsAux n (i + 1) ws

/-- `data.words.map((word, index) => ...)` of `fetchWordChain`. -/
def initWords (ws : List (List Char)) : List WordSlot :=
  initWordsAux ws.length 0 ws

/-- The session right after a successful fetch: `lives = 5`,
`totalGuesses = 0`, and `selectedWordIndex` moved to the first `unsolved`
slot when one exists (else it keeps its `useState(1)` initial value). -/
def initSession (ws : List (List Char)) : Session :=
  let slots := initWords ws
  { words := slots
    lives := 5
    selectedWordIndex :=
      match slots.findIdx? (fun w => w.status == .unsolved) with
      | some k => k
      | none => 1
    totalGuesses := 0 }

/-- `isGameComplete`: `words.every(word => word.status === 'solved')`. -/
def isGameComplete (s : Session) : Bool :=
  s.words.all (fun w => w.status == .solved)

/-- `isGameOver`: `lives <= 0`. -/
def isGameOver (s : Session) : Bool := decide (s.lives ≤ 0)

/-- The interactive game view is rendered (so player events can fire at
all) exactly when the component is past loading/error and neither the
completion view (`isGameComplete && words.length > 0`) nor the game-over
view (`isGameOver`) has replaced it (`part_002` lines 329-453). -/
def gameActive (s : Session) : Bool :=
  !(isGameComplete s && decide (0 < s.words.length)) && !isGameOver s

/-- `setSelectedWordIndex(i)` from the per-slot `onClick`. -/
def setSelected (s : Session) (i : Nat) : Session :=
  { s with selectedWordIndex := i }

/-- The player/timeout events the rendered game view can deliver.  Input
events exist only while the game view is on screen (`gameActive`); the
failure-reversion timeout can fire regardless. -/
inductive Step : Session → Session → Prop where
  | key (s : Session) (c : Char) (h : gameActive s = true) :
      Step s (handleKeyPress s c)
  | back (s : Session) (h : gameActive s = true) :
      Step s (handleBackspace s)
  | submit (s : Session) (i : Nat) (h : gameActive s = true) :
      Step s (handleSubmitWord s i)
  | select (s : Session) (i : Nat) (h : gameActive s = true)
      (hi : i < s.words.length) : Step s (setSelected s i)
  | revert (s : Session) (i : Nat) : Step s (revertFailed s i)

/-- The session states reachable from initialization with chain `ws`. -/
inductive Reachable (ws : List (List Char)) : Session → Prop where
  | init : Reachable ws (initSession ws)
  | step {s s' : Session} : Reachable ws s → Step s s' → Reachable ws s'

/-! ### Basic lemmas about `updateSlot`, `slotAt` and `initWords` -/

theorem updateSlot_length (ws : List WordSlot) (i : Nat) (f : WordSlot → WordSlot) :
    (updateSlot ws i f).length = ws.length := by
  induction ws generalizing i with
  | nil => rfl
  | cons w ws ih =>
    cases i with
    | zero => rfl
    | succ i => simpa [updateSlot] using ih i

theorem updateSlot_getElem?_self (ws : List WordSlot) (i : Nat)
    (f : WordSlot → WordSlot) : (updateSlot ws i f)[i]? = (ws[i]?).map f := by
  induction ws generalizing i with
  | nil => cases i <;> rfl
  | cons w ws ih =>
    cases i with
    | zero => simp [updateSlot]
    | succ i => simpa [updateSlot] using ih i

theorem updateSlot_getElem?_ne (ws : List WordSlot) (i j : Nat)
    (f : WordSlot → WordSlot) (h : j ≠ i) :
    (updateSlot ws i f)[j]? = ws[j]? := by
  induction ws generalizing i j with
  | nil => cases i <;> rfl
  | cons w ws ih =>
    cases i with
    | zero =>
      cases j with
      | zero => exact absurd rfl h
      | succ j => simp [updateSlot]
    | succ i =>
      cases j with
      | zero => simp [updateSlot]
      | succ j => simpa [updateSlot] using ih i j (by omega)

theorem updateSlot_eq_self (ws : List WordSlot) (i : Nat)
    (f : WordSlot → WordSlot) (h : ∀ w, ws[i]? = some w → f w = w) :
    updateSlot ws i f = ws := by
  induction ws generalizing i with
  | nil => rfl
  | cons w ws ih =>
    cases i with
    | zero =>
      simpa [updateSlot] using h w (by simp)
    | succ i =>
      simp only [updateSlot, List.cons.injEq, true_and]
      exact ih i (fun u hu => h u (by simpa using hu))

theorem slotAt_eq_of_getElem? (s : Session) (i : Nat) (w : WordSlot)
    (h : s.words[i]? = some w) : slotAt s i = w := by
  simp [slotAt, List.getD_eq_getElem?_getD, h]

theorem slotAt_getElem? (s : Session) (i : Nat) (h : i < s.words.length) :
    s.words[i]? = some (slotAt s i) := by
  rw [List.getElem?_eq_getElem h]
  simp [slotAt, List.getD_eq_getElem?_getD, List.getElem?_eq_getElem h]

theorem initWordsAux_length (n k : Nat) (ws : List (List Char)) :
    (initWordsAux n k ws).length = ws.length := by
  induction ws generalizing k with
  | nil => rfl
  | cons w ws ih => simpa [initWordsAux] using ih (k + 1)

theorem initWordsAux_getElem? (n k j : Nat) (ws : List (List Char)) :
    (initWordsAux n k ws)[j]? = (ws[j]?).map (initSlot n (k + j)) := by
  induction ws generalizing k j with
  | nil => cases j <;> rfl
  | cons w ws ih =>
    cases j with
    | zero => simp [initWordsAux]
    | succ j =>
      simp only [initWordsAux, List.getElem?_cons_succ]
      rw [ih (k + 1) j]
      have hkj : k + 1 + j = k + (j + 1) := by omega
      rw [hkj]

theorem initWords_length (ws : List (List Char)) :
    (initWords ws).length = ws.length := initWordsAux_length ws.length 0 ws

theorem initWords_getElem? (ws : List (List Char)) (j : Nat) :
    (initWords ws)[j]? = (ws[j]?).map (initSlot ws.length j) := by
  simpa using initWordsAux_getElem? ws.length 0 j ws

/-! ### The reachable-state invariant -/

/-- The per-slot invariant: the solution is non-empty, the cursor never
sits below the revealed-hint count, and an interior slot (`1 ≤ i` and
`i < n - 1`) has at least one revealed hint and, when `solved`, a stored
input that still matches its solution. -/
def SlotInv (n i : Nat) (w : WordSlot) : Prop :=
  w.word ≠ [] ∧ w.hintsRevealed ≤ w.currentIndex ∧
    (1 ≤ i → i < n - 1 →
      1 ≤ w.hintsRevealed ∧ (w.status = .solved → guessOf w = w.word))

/-- The session invariant maintained by every reachable state. -/
def SessionInv (s : Session) : Prop :=
  0 ≤ s.lives ∧ ∀ i w, s.words[i]? = some w → SlotInv s.words.length i w

theorem lives_pos_of_gameActive (s : Session) (h : gameActive s = true) :
    0 < s.lives := by
  unfold gameActive isGameOver at h
  simp only [Bool.and_eq_true, Bool.not_eq_true', decide_eq_false_iff_not,
    not_le] at h
  exact h.2

/-! ### Branch characterizations of the handlers -/

theorem handleKeyPress_noop (s : Session) (c : Char)
    (h : s.selectedWordIndex < 1 ∨ s.words.length - 1 ≤ s.selectedWordIndex ∨
      (slotAt s s.selectedWordIndex).status = .solved ∨
      capacity ≤ (slotAt s s.selectedWordIndex).currentIndex) :
    handleKeyPress s c = s := by
  unfold handleKeyPress
  rcases h with h | h | h | h
  · rw [if_pos (Or.inl h)]
  · rw [if_pos (Or.inr h)]
  · split
    · rfl
    · rw [if_pos (Or.inl h)]
  · split
    · rfl
    · rw [if_pos (Or.inr h)]

theorem handleKeyPress_update (s : Session) (c : Char)
    (h1 : 1 ≤ s.selectedWordIndex)
    (h2 : s.selectedWordIndex < s.words.length - 1)
    (h3 : (slotAt s s.selectedWordIndex).status ≠ .solved)
    (h4 : (slotAt s s.selectedWordIndex).currentIndex < capacity) :
    handleKeyPress s c =
      { s with
        words := updateSlot s.words s.selectedWordIndex (fun w =>
          { w with
            userInput := w.userInput.set w.currentIndex [c.toUpper]
            currentIndex := w.currentIndex + 1
            status := .solving }) } := by
  unfold handleKeyPress
  rw [if_neg (by omega), if_neg (by rw [not_or, not_le]; exact ⟨h3, h4⟩)]

theorem handleBackspace_noop (s : Session)
    (h : s.selectedWordIndex < 1 ∨ s.words.length - 1 ≤ s.selectedWordIndex ∨
      (slotAt s s.selectedWordIndex).status = .solved ∨
      (slotAt s s.selectedWordIndex).currentIndex ≤
        max 1 (slotAt s s.selectedWordIndex).hintsRevealed) :
    handleBackspace s = s := by
  unfold handleBackspace
  rcases h with h | h | h | h
  · rw [if_pos (Or.inl h)]
  · rw [if_pos (Or.inr h)]
  · split
    · rfl
    · rw [if_pos (Or.inl h)]
  · split
    · rfl
    · rw [if_pos (Or.inr h)]

theorem handleBackspace_update (s : Session)
    (h1 : 1 ≤ s.selectedWordIndex)
    (h2 : s.selectedWordIndex < s.words.length - 1)
    (h3 : (slotAt s s.selectedWordIndex).status ≠ .solved)
    (h4 : max 1 (slotAt s s.selectedWordIndex).hintsRevealed <
      (slotAt s s.selectedWordIndex).currentIndex) :
    handleBackspace s =
      { s with
        words := updateSlot s.words s.selectedWordIndex (fun w =>
          { w with
            userInput := w.userInput.set (w.currentIndex - 1) []
            currentIndex := w.currentIndex - 1 }) } := by
  unfold handleBackspace
  rw [if_neg (by omega), if_neg (by rw [not_or, not_le]; exact ⟨h3, h4⟩)]

theorem handleSubmitWord_noop (s : Session) (index : Nat)
    (h : index < 1 ∨ s.words.length - 1 ≤ index) :
    handleSubmitWord s index = s := by
  unfold handleSubmitWord
  rw [if_pos h]

theorem handleSubmitWord_correct (s : Session) (index : Nat)
    (h1 : 1 ≤ index) (h2 : index < s.words.length - 1)
    (hc : guessOf (slotAt s index) = (slotAt s index).word) :
    handleSubmitWord s index =
      { s with
        totalGuesses := s.totalGuesses + 1
        words := updateSlot s.words index (fun w => { w with status := .solved })
        selectedWordIndex :=
          if index < s.words.length - 2 then index + 1
          else s.selectedWordIndex } := by
  unfold handleSubmitWord
  rw [if_neg (by omega), if_pos hc]

theorem handleSubmitWord_wrong (s : Session) (index : Nat)
    (h1 : 1 ≤ index) (h2 : index < s.words.length - 1)
    (hc : guessOf (slotAt s index) ≠ (slotAt s index).word) :
    handleSubmitWord s index =
      { s with
        totalGuesses := s.totalGuesses + 1
        words := updateSlot s.words index (fun w =>
          { w with
            status := .failed
            userInput := failInput w.word (min (w.hintsRevealed + 1) w.word.length)
            currentIndex := min (w.hintsRevealed + 1) w.word.length
            hintsRevealed := min (w.hintsRevealed + 1) w.word.length })
        lives := s.lives - 1 } := by
  unfold handleSubmitWord
  rw [if_neg (by omega), if_neg hc]

/-! ### Preservation of the invariant -/

theorem sessionInv_handleKeyPress (s : Session) (c : Char)
    (h : SessionInv s) : SessionInv (handleKeyPress s c) := by
  by_cases h1 : 1 ≤ s.selectedWordIndex
  case neg => rw [handleKeyPress_noop s c (Or.inl (by omega))]; exact h
  by_cases h2 : s.selectedWordIndex < s.words.length - 1
  case neg => rw [handleKeyPress_noop s c (Or.inr (Or.inl (by omega)))]; exact h
  by_cases h3 : (slotAt s s.selectedWordIndex).status = .solved
  case pos => rw [handleKeyPress_noop s c (Or.inr (Or.inr (Or.inl h3)))]; exact h
  by_cases h4 : (slotAt s s.selectedWordIndex).currentIndex < capacity
  case neg =>
    rw [handleKeyPress_noop s c (Or.inr (Or.inr (Or.inr (by omega))))]; exact h
  rw [handleKeyPress_update s c h1 h2 h3 h4]
  obtain ⟨hl, hs⟩ := h
  refine ⟨hl, ?_⟩
  intro i w hw
  simp only [updateSlot_length] at *
  by_cases hi : i = s.selectedWordIndex
  · rw [hi] at hw ⊢
    rw [updateSlot_getElem?_self, slotAt_getElem? s s.selectedWordIndex
      (by omega), Option.map_some'] at hw
    obtain rfl : _ = w := Option.some.inj hw
    obtain ⟨hwne, hcur, hint⟩ := hs s.selectedWordIndex
      (slotAt s s.selectedWordIndex)
      (slotAt_getElem? s s.selectedWordIndex (by omega))
    refine ⟨hwne, by simpa using Nat.le_succ_of_le hcur, fun hia hib => ?_⟩
    exact ⟨(hint hia hib).1, fun hst => by simp at hst⟩
  · rw [updateSlot_getElem?_ne _ _ _ _ hi] at hw
    exact hs i w hw

theorem sessionInv_handleBackspace (s : Session)
    (h : SessionInv s) : SessionInv (handleBackspace s) := by
  by_cases h1 : 1 ≤ s.selectedWordIndex
  case neg => rw [handleBackspace_noop s (Or.inl (by omega))]; exact h
  by_cases h2 : s.selectedWordIndex < s.words.length - 1
  case neg => rw [handleBackspace_noop s (Or.inr (Or.inl (by omega)))]; exact h
  by_cases h3 : (slotAt s s.selectedWordIndex).status = .solved
  case pos => rw [handleBackspace_noop s (Or.inr (Or.inr (Or.inl h3)))]; exact h
  by_cases h4 : max 1 (slotAt s s.selectedWordIndex).hintsRevealed <
      (slotAt s s.selectedWordIndex).currentIndex
  case neg =>
    rw [handleBackspace_noop s (Or.inr (Or.inr (Or.inr (by omega))))]; exact h
  rw [handleBackspace_update s h1 h2 h3 h4]
  obtain ⟨hl, hs⟩ := h
  refine ⟨hl, ?_⟩
  intro i w hw
  simp only [updateSlot_length] at *
  by_cases hi : i = s.selectedWordIndex
  · rw [hi] at hw ⊢
    rw [updateSlot_getElem?_self, slotAt_getElem? s s.selectedWordIndex
      (by omega), Option.map_some'] at hw
    obtain rfl : _ = w := Option.some.inj hw
    obtain ⟨hwne, hcur, hint⟩ := hs s.selectedWordIndex
      (slotAt s s.selectedWordIndex)
      (slotAt_getElem? s s.selectedWordIndex (by omega))
    refine ⟨hwne, by simp; omega, fun hia hib => ?_⟩
    refine ⟨(hint hia hib).1, fun hst => absurd ?_ h3⟩
    simpa using hst
  · rw [updateSlot_getElem?_ne _ _ _ _ hi] at hw
    exact hs i w hw

theorem sessionInv_handleSubmitWord (s : Session) (index : Nat)
    (ha : gameActive s = true) (h : SessionInv s) :
    SessionInv (handleSubmitWord s index) := by
  by_cases h1 : 1 ≤ index
  case neg => rw [handleSubmitWord_noop s index (Or.inl (by omega))]; exact h
  by_cases h2 : index < s.words.length - 1
  case neg => rw [handleSubmitWord_noop s index (Or.inr (by omega))]; exact h
  obtain ⟨hl, hs⟩ := h
  by_cases hc : guessOf (slotAt s index) = (slotAt s index).word
  · rw [handleSubmitWord_correct s index h1 h2 hc]
    refine ⟨hl, ?_⟩
    intro i w hw
    simp only [updateSlot_length] at *
    by_cases hi : i = index
    · rw [hi] at hw ⊢
      rw [updateSlot_getElem?_self, slotAt_getElem? s index (by omega),
        Option.map_some'] at hw
      obtain rfl : _ = w := Option.some.inj hw
      obtain ⟨hwne, hcur, hint⟩ :=
        hs index (slotAt s index) (slotAt_getElem? s index (by omega))
      exact ⟨hwne, hcur, fun hia hib => ⟨(hint hia hib).1, fun _ => hc⟩⟩
    · rw [updateSlot_getElem?_ne _ _ _ _ hi] at hw
      exact hs i w hw
  · rw [handleSubmitWord_wrong s index h1 h2 hc]
    have hlp : 0 < s.lives := lives_pos_of_gameActive s ha
    refine ⟨show (0 : Int) ≤ s.lives - 1 by omega, ?_⟩
    intro i w hw
    simp only [updateSlot_length] at *
    by_cases hi : i = index
    · rw [hi] at hw ⊢
      rw [updateSlot_getElem?_self, slotAt_getElem? s index (by omega),
        Option.map_some'] at hw
      obtain rfl : _ = w := Option.some.inj hw
      obtain ⟨hwne, hcur, hint⟩ :=
        hs index (slotAt s index) (slotAt_getElem? s index (by omega))
      have hlen : 1 ≤ (slotAt s index).word.length :=
        List.length_pos.mpr hwne
      refine ⟨hwne, le_rfl, fun hia hib => ?_⟩
      refine ⟨?_, fun hst => by simp at hst⟩
      simp only [le_min_iff]
      exact ⟨by omega, hlen⟩
    · rw [updateSlot_getElem?_ne _ _ _ _ hi] at hw
      exact hs i w hw

theorem sessionInv_setSelected (s : Session) (i : Nat)
    (h : SessionInv s) : SessionInv (setSelected s i) := h

theorem sessionInv_revertFailed (s : Session) (index : Nat)
    (h : SessionInv s) : SessionInv (revertFailed s index) := by
  obtain ⟨hl, hs⟩ := h
  refine ⟨hl, ?_⟩
  intro i w hw
  simp only [revertFailed, updateSlot_length] at *
  by_cases hi : i = index
  · subst hi
    rw [updateSlot_getElem?_self] at hw
    cases hold : s.words[i]? with
    | none => rw [hold] at hw; simp at hw
    | some u =>
      rw [hold, Option.map_some'] at hw
      obtain rfl : _ = w := Option.some.inj hw
      obtain ⟨hwne, hcur, hint⟩ := hs i u hold
      by_cases hf : u.status = .failed
      · rw [if_pos hf]
        exact ⟨hwne, hcur, fun hia hib => ⟨(hint hia hib).1,
          fun hst => by simp at hst⟩⟩
      · rw [if_neg hf]
        exact ⟨hwne, hcur, hint⟩
  · rw [updateSlot_getElem?_ne _ _ _ _ hi] at hw
    exact hs i w hw

theorem sessionInv_init (ws : List (List Char)) (hws : ∀ w ∈ ws, w ≠ []) :
    SessionInv (initSession ws) := by
  refine ⟨by simp [initSession], ?_⟩
  intro i w hw
  simp only [initSession] at hw ⊢
  rw [initWords_getElem?] at hw
  cases hv : ws[i]? with
  | none => rw [hv] at hw; simp at hw
  | some v =>
    rw [hv, Option.map_some'] at hw
    obtain rfl : _ = w := Option.some.inj hw
    have hvne : v ≠ [] := hws v (List.getElem?_mem hv)
    rw [initWords_length]
    unfold initSlot
    refine ⟨by simpa [jsToUpper] using hvne, ?_, ?_⟩
    · by_cases hmid : 0 < i ∧ i < ws.length - 1
      · simp [hmid]
      · simp [hmid]
    · intro hia hib
      have hmid : 0 < i ∧ i < ws.length - 1 := ⟨by omega, hib⟩
      constructor
      · simp [hmid]
      · intro hst
        have : ¬(i = 0 ∨ i = ws.length - 1) := by omega
        simp [this] at hst

theorem sessionInv_step (s s' : Session) (h : SessionInv s) (hst : Step s s') :
    SessionInv s' := by
  cases hst with
  | key c ha => exact sessionInv_handleKeyPress s c h
  | back ha => exact sessionInv_handleBackspace s h
  | submit i ha => exact sessionInv_handleSubmitWord s i ha h
  | select i ha hi => exact sessionInv_setSelected s i h
  | revert i => exact sessionInv_revertFailed s i h

theorem sessionInv_reachable (ws : List (List Char)) (s : Session)
    (hws : ∀ w ∈ ws, w ≠ []) (hr : Reachable ws s) : SessionInv s := by
  induction hr with
  | init => exact sessionInv_init ws hws
  | step hprev hstep ih => exact sessionInv_step _ _ ih hstep

/-! ### Further helper lemmas for the claims -/

theorem updateSlot_getD_self (ws : List WordSlot) (i : Nat)
    (f : WordSlot → WordSlot) (h : i < ws.length) :
    (updateSlot ws i f).getD i default = f (ws.getD i default) := by
  rw [List.getD_eq_getElem?_getD, List.getD_eq_getElem?_getD,
    updateSlot_getElem?_self, List.getElem?_eq_getElem h]
  rfl

theorem drop_take_one (word : List Char) (j : Nat) (h : j < word.length) :
    (word.drop j).take 1 = [word.get ⟨j, h⟩] := by
  rw [List.drop_eq_getElem_cons h]
  rfl

theorem failInput_take (word : List Char) (nh : Nat) (h : nh ≤ word.length) :
    (failInput word nh).take nh = (word.take nh).map (fun ch => [ch]) := by
  unfold failInput
  rw [← List.map_take, List.take_range,
    Nat.min_eq_left (le_max_right capacity nh)]
  apply List.ext_getElem
  · simp [Nat.min_eq_left h]
  · intro j hj hj2
    simp only [List.getElem_map, List.getElem_range, List.getElem_take]
    have hjn : j < nh := by simpa using hj
    have hjw : j < word.length := by omega
    rw [if_pos hjn, drop_take_one word j hjw]
    rfl

theorem solved_slot_eta (w : WordSlot) (h : w.status = .solved) :
    { w with status := WStatus.solved } = w := by
  cases w
  simp only at h
  rw [h]

theorem updateSlot_word_preserved (ws : List WordSlot) (i : Nat)
    (f : WordSlot → WordSlot) (hf : ∀ w, (f w).word = w.word)
    (j : Nat) (w w' : WordSlot) (hw : ws[j]? = some w)
    (hw' : (updateSlot ws i f)[j]? = some w') : w'.word = w.word := by
  by_cases hj : j = i
  · rw [hj] at hw hw'
    rw [updateSlot_getElem?_self, hw, Option.map_some'] at hw'
    obtain rfl : _ = w' := Option.some.inj hw'
    exact hf w
  · rw [updateSlot_getElem?_ne _ _ _ _ hj, hw] at hw'
    obtain rfl : _ = w' := Option.some.inj hw'
    rfl

/-! ### The claims about the puzzle state machine -/

/-- A concrete chain, used by the witnesses. -/
def demoChain : List (List Char) :=
  ["GOOD".toList, "TIME".toList, "OUT".toList, "SIDE".toList, "WALK".toList]

/-- C7: in a reachable session state (over a chain of non-empty words),
`isGameOver` is true exactly when `lives` equals 0, independently of the
slots' solved state (the statement mentions no slot). -/
theorem isOver_iff_lives_zero (ws : List (List Char)) (s : Session)
    (hws : ∀ w ∈ ws, w ≠ []) (hr : Reachable ws s) :
    isGameOver s = true ↔ s.lives = 0 := by
  have h0 := (sessionInv_reachable ws s hws hr).1
  unfold isGameOver
  constructor
  · intro hh
    rw [decide_eq_true_eq] at hh
    omega
  · intro hh
    rw [decide_eq_true_eq]
    omega

/-- Witness for `isOver_iff_lives_zero` at the freshly initialized demo
session (5 lives, not over). -/
theorem isOver_iff_lives_zero_witness :
    isGameOver (initSession demoChain) = true ↔
      (initSession demoChain).lives = 0 :=
  isOver_iff_lives_zero demoChain (initSession demoChain) (by decide)
    Reachable.init

/-- C2: while the game view is active, submitting an incorrect guess at an
interior slot decrements `lives` by exactly 1 and never below 0, sets the
slot's `hintsRevealed` to `min (hintsRevealed + 1) (word length)` (an
increase by exactly 1 whenever the cap is not hit), and leaves the cursor
equal to `hintsRevealed` with the first `hintsRevealed` input cells holding
the solution's prefix. -/
theorem submit_incorrect_claim (s : Session) (i : Nat)
    (ha : gameActive s = true)
    (h1 : 1 ≤ i) (h2 : i < s.words.length - 1)
    (hwrong : guessOf (slotAt s i) ≠ (slotAt s i).word) :
    (handleSubmitWord s i).lives = s.lives - 1 ∧
    0 ≤ (handleSubmitWord s i).lives ∧
    (slotAt (handleSubmitWord s i) i).hintsRevealed =
      min ((slotAt s i).hintsRevealed + 1) (slotAt s i).word.length ∧
    ((slotAt s i).hintsRevealed < (slotAt s i).word.length →
      (slotAt (handleSubmitWord s i) i).hintsRevealed =
        (slotAt s i).hintsRevealed + 1) ∧
    (slotAt (handleSubmitWord s i) i).currentIndex =
      (slotAt (handleSubmitWord s i) i).hintsRevealed ∧
    (slotAt (handleSubmitWord s i) i).userInput.take
        (slotAt (handleSubmitWord s i) i).hintsRevealed =
      ((slotAt s i).word.take
          (min ((slotAt s i).hintsRevealed + 1) (slotAt s i).word.length)).map
        (fun ch => [ch]) := by
  have hlp : 0 < s.lives := lives_pos_of_gameActive s ha
  have hib : i < s.words.length := by omega
  have hlives : (handleSubmitWord s i).lives = s.lives - 1 := by
    rw [handleSubmitWord_wrong s i h1 h2 hwrong]
  have hslot : slotAt (handleSubmitWord s i) i =
      { slotAt s i with
        status := .failed
        userInput := failInput (slotAt s i).word
          (min ((slotAt s i).hintsRevealed + 1) (slotAt s i).word.length)
        currentIndex := min ((slotAt s i).hintsRevealed + 1)
          (slotAt s i).word.length
        hintsRevealed := min ((slotAt s i).hintsRevealed + 1)
          (slotAt s i).word.length } := by
    rw [handleSubmitWord_wrong s i h1 h2 hwrong]
    show (updateSlot s.words i _).getD i default = _
    rw [updateSlot_getD_self s.words i _ hib]
    rfl
  rw [hlives, hslot]
  refine ⟨rfl, by omega, rfl, fun hcap => ?_, rfl, ?_⟩
  · show min ((slotAt s i).hintsRevealed + 1) (slotAt s i).word.length =
      (slotAt s i).hintsRevealed + 1
    omega
  · show (failInput (slotAt s i).word _).take _ = _
    exact failInput_take _ _ (Nat.min_le_right _ _)

/-- Witness for `submit_incorrect_claim`: submitting the single hint letter
"T" against the solution "TIME" at slot 1 of the fresh demo session. -/
theorem submit_incorrect_claim_witness :
    (handleSubmitWord (initSession demoChain) 1).lives =
      (initSession demoChain).lives - 1 ∧
    0 ≤ (handleSubmitWord (initSession demoChain) 1).lives ∧
    (slotAt (handleSubmitWord (initSession demoChain) 1) 1).hintsRevealed =
      min ((slotAt (initSession demoChain) 1).hintsRevealed + 1)
        (slotAt (initSession demoChain) 1).word.length ∧
    ((slotAt (initSession demoChain) 1).hintsRevealed <
        (slotAt (initSession demoChain) 1).word.length →
      (slotAt (handleSubmitWord (initSession demoChain) 1) 1).hintsRevealed =
        (slotAt (initSession demoChain) 1).hintsRevealed + 1) ∧
    (slotAt (handleSubmitWord (initSession demoChain) 1) 1).currentIndex =
      (slotAt (handleSubmitWord (initSession demoChain) 1) 1).hintsRevealed ∧
    (slotAt (handleSubmitWord (initSession demoChain) 1) 1).userInput.take
        (slotAt (handleSubmitWord (initSession demoChain) 1) 1).hintsRevealed =
      ((slotAt (initSession demoChain) 1).word.take
          (min ((slotAt (initSession demoChain) 1).hintsRevealed + 1)
            (slotAt (initSession demoChain) 1).word.length)).map
        (fun ch => [ch]) :=
  submit_incorrect_claim (initSession demoChain) 1 (by decide) (by decide)
    (by decide) (by decide)

/-- C6: for a reachable session, `handleBackspace` is a no-op when the
selected slot is a boundary index, is `solved`, or has `cursor ≤
hintsRevealed`; otherwise it decrements the cursor and clears the cell at
the new cursor position.  Moreover no reachable slot ever has its cursor
below its `hintsRevealed`. -/
theorem backspace_claim (ws : List (List Char)) (s : Session)
    (hws : ∀ w ∈ ws, w ≠ []) (hr : Reachable ws s) :
    ((s.selectedWordIndex < 1 ∨ s.words.length - 1 ≤ s.selectedWordIndex ∨
        (slotAt s s.selectedWordIndex).status = .solved ∨
        (slotAt s s.selectedWordIndex).currentIndex ≤
          (slotAt s s.selectedWordIndex).hintsRevealed) →
      handleBackspace s = s) ∧
    (1 ≤ s.selectedWordIndex → s.selectedWordIndex < s.words.length - 1 →
      (slotAt s s.selectedWordIndex).status ≠ .solved →
      (slotAt s s.selectedWordIndex).hintsRevealed <
        (slotAt s s.selectedWordIndex).currentIndex →
      (slotAt (handleBackspace s) s.selectedWordIndex).currentIndex =
        (slotAt s s.selectedWordIndex).currentIndex - 1 ∧
      (slotAt (handleBackspace s) s.selectedWordIndex).userInput =
        (slotAt s s.selectedWordIndex).userInput.set
          ((slotAt s s.selectedWordIndex).currentIndex - 1) []) ∧
    (∀ (i : Nat) (w : WordSlot), s.words[i]? = some w →
      w.hintsRevealed ≤ w.currentIndex) := by
  have hinv := sessionInv_reachable ws s hws hr
  refine ⟨?_, ?_, fun i w hw => (hinv.2 i w hw).2.1⟩
  · intro h
    apply handleBackspace_noop
    rcases h with h | h | h | h
    · exact Or.inl h
    · exact Or.inr (Or.inl h)
    · exact Or.inr (Or.inr (Or.inl h))
    · exact Or.inr (Or.inr (Or.inr (le_trans h (le_max_right 1 _))))
  · intro h1 h2 h3 h4
    have hib : s.selectedWordIndex < s.words.length := by omega
    have hint1 : 1 ≤ (slotAt s s.selectedWordIndex).hintsRevealed :=
      ((hinv.2 s.selectedWordIndex (slotAt s s.selectedWordIndex)
        (slotAt_getElem? s s.selectedWordIndex hib)).2.2 h1 h2).1
    have h4' : max 1 (slotAt s s.selectedWordIndex).hintsRevealed <
        (slotAt s s.selectedWordIndex).currentIndex := by omega
    have hkey : slotAt (handleBackspace s) s.selectedWordIndex =
        { slotAt s s.selectedWordIndex with
          userInput := (slotAt s s.selectedWordIndex).userInput.set
            ((slotAt s s.selectedWordIndex).currentIndex - 1) []
          currentIndex := (slotAt s s.selectedWordIndex).currentIndex - 1 } := by
      rw [handleBackspace_update s h1 h2 h3 h4']
      show (updateSlot s.words _ _).getD _ default = _
      rw [updateSlot_getD_self s.words _ _ hib]
      rfl
    rw [hkey]
    exact ⟨rfl, rfl⟩

/-- Witness for `backspace_claim`: at the fresh demo session the cursor
sits on the hint floor so backspace is a no-op; after typing one letter,
backspace moves the cursor from 2 back to 1. -/
theorem backspace_claim_witness :
    handleBackspace (initSession demoChain) = initSession demoChain ∧
    (slotAt (handleBackspace (handleKeyPress (initSession demoChain) 'X'))
        (handleKeyPress (initSession demoChain) 'X').selectedWordIndex).currentIndex =
      (slotAt (handleKeyPress (initSession demoChain) 'X')
        (handleKeyPress (initSession demoChain) 'X').selectedWordIndex).currentIndex - 1 ∧
    (slotAt (initSession demoChain) 1).hintsRevealed ≤
      (slotAt (initSession demoChain) 1).currentIndex :=
  ⟨(backspace_claim demoChain (initSession demoChain) (by decide)
      Reachable.init).1 (Or.inr (Or.inr (Or.inr (by decide)))),
   ((backspace_claim demoChain (handleKeyPress (initSession demoChain) 'X')
      (by decide)
      (Reachable.step Reachable.init
        (Step.key (initSession demoChain) 'X' (by decide)))).2.1
      (by decide) (by decide) (by decide) (by decide)).1,
   (backspace_claim demoChain (initSession demoChain) (by decide)
      Reachable.init).2.2 1 (slotAt (initSession demoChain) 1) (by decide)⟩

/-- C5: for a reachable session and an interior index, submitting a correct
guess leaves `lives` unchanged, marks the slot `solved` and increments
`totalGuesses`; submitting at an already-solved slot leaves every slot and
`lives` unchanged but still increments `totalGuesses`. -/
theorem submit_solved_claim (ws : List (List Char)) (s : Session) (i : Nat)
    (hws : ∀ w ∈ ws, w ≠ []) (hr : Reachable ws s)
    (h1 : 1 ≤ i) (h2 : i < s.words.length - 1) :
    (guessOf (slotAt s i) = (slotAt s i).word →
      (handleSubmitWord s i).lives = s.lives ∧
      (slotAt (handleSubmitWord s i) i).status = .solved ∧
      (handleSubmitWord s i).totalGuesses = s.totalGuesses + 1) ∧
    ((slotAt s i).status = .solved →
      (handleSubmitWord s i).words = s.words ∧
      (handleSubmitWord s i).lives = s.lives ∧
      (handleSubmitWord s i).totalGuesses = s.totalGuesses + 1) := by
  have hinv := sessionInv_reachable ws s hws hr
  have hib : i < s.words.length := by omega
  constructor
  · intro hc
    rw [handleSubmitWord_correct s i h1 h2 hc]
    refine ⟨rfl, ?_, rfl⟩
    show ((updateSlot s.words i _).getD i default).status = WStatus.solved
    rw [updateSlot_getD_self s.words i _ hib]
  · intro hsolved
    have hc : guessOf (slotAt s i) = (slotAt s i).word :=
      ((hinv.2 i (slotAt s i) (slotAt_getElem? s i hib)).2.2 h1 h2).2 hsolved
    rw [handleSubmitWord_correct s i h1 h2 hc]
    refine ⟨?_, rfl, rfl⟩
    show updateSlot s.words i _ = s.words
    apply updateSlot_eq_self
    intro w hw
    have hwe : w = slotAt s i := by
      rw [slotAt_getElem? s i hib] at hw
      exact (Option.some.inj hw).symm
    rw [hwe]
    exact solved_slot_eta _ hsolved

/-- The demo session after typing I, M, E into slot 1 (whose input then
reads TIME). -/
def demoTyped : Session :=
  handleKeyPress (handleKeyPress (handleKeyPress (initSession demoChain) 'I')
    'M') 'E'

theorem reachable_demoTyped : Reachable demoChain demoTyped :=
  Reachable.step
    (Reachable.step
      (Reachable.step Reachable.init
        (Step.key (initSession demoChain) 'I' (by decide)))
      (Step.key (handleKeyPress (initSession demoChain) 'I') 'M' (by decide)))
    (Step.key (handleKeyPress (handleKeyPress (initSession demoChain) 'I') 'M')
      'E' (by decide))

/-- The demo session after additionally submitting slot 1 correctly. -/
def demoSolved : Session := handleSubmitWord demoTyped 1

theorem reachable_demoSolved : Reachable demoChain demoSolved :=
  Reachable.step reachable_demoTyped (Step.submit demoTyped 1 (by decide))

/-- Witness for `submit_solved_claim`: submitting the typed word TIME at
slot 1 solves it without touching lives; re-submitting the solved slot is a
slot/lives no-op that still counts a guess. -/
theorem submit_solved_claim_witness :
    ((handleSubmitWord demoTyped 1).lives = demoTyped.lives ∧
      (slotAt (handleSubmitWord demoTyped 1) 1).status = .solved ∧
      (handleSubmitWord demoTyped 1).totalGuesses =
        demoTyped.totalGuesses + 1) ∧
    ((handleSubmitWord demoSolved 1).words = demoSolved.words ∧
      (handleSubmitWord demoSolved 1).lives = demoSolved.lives ∧
      (handleSubmitWord demoSolved 1).totalGuesses =
        demoSolved.totalGuesses + 1) :=
  ⟨(submit_solved_claim demoChain demoTyped 1 (by decide) reachable_demoTyped
      (by decide) (by decide)).1 (by decide),
   (submit_solved_claim demoChain demoSolved 1 (by decide) reachable_demoSolved
      (by decide) (by decide)).2 (by decide)⟩

/-! ### C10: frame properties of the input handlers -/

theorem handleKeyPress_eq_or (s : Session) (c : Char) :
    handleKeyPress s c = s ∨
    handleKeyPress s c =
      { s with
        words := updateSlot s.words s.selectedWordIndex (fun w =>
          { w with
            userInput := w.userInput.set w.currentIndex [c.toUpper]
            currentIndex := w.currentIndex + 1
            status := .solving }) } := by
  unfold handleKeyPress
  split
  · exact Or.inl rfl
  split
  · exact Or.inl rfl
  · exact Or.inr rfl

theorem handleBackspace_eq_or (s : Session) :
    handleBackspace s = s ∨
    handleBackspace s =
      { s with
        words := updateSlot s.words s.selectedWordIndex (fun w =>
          { w with
            userInput := w.userInput.set (w.currentIndex - 1) []
            currentIndex := w.currentIndex - 1 }) } := by
  unfold handleBackspace
  split
  · exact Or.inl rfl
  split
  · exact Or.inl rfl
  · exact Or.inr rfl

theorem handleSubmitWord_eq_or (s : Session) (i : Nat) :
    handleSubmitWord s i = s ∨
    handleSubmitWord s i =
      { s with
        totalGuesses := s.totalGuesses + 1
        words := updateSlot s.words i (fun w => { w with status := .solved })
        selectedWordIndex :=
          if i < s.words.length - 2 then i + 1 else s.selectedWordIndex } ∨
    handleSubmitWord s i =
      { s with
        totalGuesses := s.totalGuesses + 1
        words := updateSlot s.words i (fun w =>
          { w with
            status := .failed
            userInput := failInput w.word (min (w.hintsRevealed + 1) w.word.length)
            currentIndex := min (w.hintsRevealed + 1) w.word.length
            hintsRevealed := min (w.hintsRevealed + 1) w.word.length })
        lives := s.lives - 1 } := by
  unfold handleSubmitWord
  split
  · exact Or.inl rfl
  split
  · exact Or.inr (Or.inl rfl)
  · exact Or.inr (Or.inr rfl)

/-- C10: `handleKeyPress` and `handleBackspace` change no slot other than
the one at `selectedWordIndex` and leave `lives`, `totalGuesses` and
`selectedWordIndex` alone; `handleSubmitWord i` changes no slot other than
the one at `i`; and none of the three ever changes any slot's solution
word. -/
theorem frame_claim (s : Session) (c : Char) (i : Nat) :
    ((handleKeyPress s c).words.length = s.words.length ∧
      (∀ j, j ≠ s.selectedWordIndex →
        (handleKeyPress s c).words[j]? = s.words[j]?) ∧
      (∀ (j : Nat) (w w' : WordSlot), s.words[j]? = some w →
        (handleKeyPress s c).words[j]? = some w' → w'.word = w.word) ∧
      (handleKeyPress s c).lives = s.lives ∧
      (handleKeyPress s c).totalGuesses = s.totalGuesses ∧
      (handleKeyPress s c).selectedWordIndex = s.selectedWordIndex) ∧
    ((handleBackspace s).words.length = s.words.length ∧
      (∀ j, j ≠ s.selectedWordIndex →
        (handleBackspace s).words[j]? = s.words[j]?) ∧
      (∀ (j : Nat) (w w' : WordSlot), s.words[j]? = some w →
        (handleBackspace s).words[j]? = some w' → w'.word = w.word) ∧
      (handleBackspace s).lives = s.lives ∧
      (handleBackspace s).totalGuesses = s.totalGuesses ∧
      (handleBackspace s).selectedWordIndex = s.selectedWordIndex) ∧
    ((handleSubmitWord s i).words.length = s.words.length ∧
      (∀ j, j ≠ i → (handleSubmitWord s i).words[j]? = s.words[j]?) ∧
      (∀ (j : Nat) (w w' : WordSlot), s.words[j]? = some w →
        (handleSubmitWord s i).words[j]? = some w' → w'.word = w.word)) := by
  refine ⟨?_, ?_, ?_⟩
  · rcases handleKeyPress_eq_or s c with h | h <;> rw [h]
    · exact ⟨rfl, fun j _ => rfl, fun j w w' hw hw' => by
        rw [hw] at hw'
        obtain rfl := Option.some.inj hw'
        rfl, rfl, rfl, rfl⟩
    · refine ⟨updateSlot_length _ _ _, fun j hj =>
        updateSlot_getElem?_ne _ _ _ _ hj, fun j w w' hw hw' => by
        refine updateSlot_word_preserved _ _ _ ?_ j w w' hw hw'
        intro u
        rfl, rfl, rfl, rfl⟩
  · rcases handleBackspace_eq_or s with h | h <;> rw [h]
    · exact ⟨rfl, fun j _ => rfl, fun j w w' hw hw' => by
        rw [hw] at hw'
        obtain rfl := Option.some.inj hw'
        rfl, rfl, rfl, rfl⟩
    · refine ⟨updateSlot_length _ _ _, fun j hj =>
        updateSlot_getElem?_ne _ _ _ _ hj, fun j w w' hw hw' => by
        refine updateSlot_word_preserved _ _ _ ?_ j w w' hw hw'
        intro u
        rfl, rfl, rfl, rfl⟩
  · rcases handleSubmitWord_eq_or s i with h | h | h <;> rw [h]
    · exact ⟨rfl, fun j _ => rfl, fun j w w' hw hw' => by
        rw [hw] at hw'
        obtain rfl := Option.some.inj hw'
        rfl⟩
    · exact ⟨updateSlot_length _ _ _, fun j hj =>
        updateSlot_getElem?_ne _ _ _ _ hj, fun j w w' hw hw' => by
        refine updateSlot_word_preserved _ _ _ ?_ j w w' hw hw'
        intro u
        rfl⟩
    · exact ⟨updateSlot_length _ _ _, fun j hj =>
        updateSlot_getElem?_ne _ _ _ _ hj, fun j w w' hw hw' => by
        refine updateSlot_word_preserved _ _ _ ?_ j w w' hw hw'
        intro u
        rfl⟩

/-- Witness for `frame_claim`: concrete frame facts at the demo session. -/
theorem frame_claim_witness :
    (handleKeyPress (initSession demoChain) 'A').words[2]? =
      (initSession demoChain).words[2]? ∧
    (handleBackspace (initSession demoChain)).words[2]? =
      (initSession demoChain).words[2]? ∧
    (handleSubmitWord (initSession demoChain) 1).words[3]? =
      (initSession demoChain).words[3]? ∧
    (slotAt (handleKeyPress (initSession demoChain) 'A') 1).word =
      (slotAt (initSession demoChain) 1).word :=
  ⟨(frame_claim (initSession demoChain) 'A' 1).1.2.1 2 (by decide),
   (frame_claim (initSession demoChain) 'A' 1).2.1.2.1 2 (by decide),
   (frame_claim (initSession demoChain) 'A' 1).2.2.2.1 3 (by decide),
   (frame_claim (initSession demoChain) 'A' 1).1.2.2.1 1
     (slotAt (initSession demoChain) 1)
     (slotAt (handleKeyPress (initSession demoChain) 'A') 1)
     (by decide) (by decide)⟩

/-! ## A model of `JSON.parse`

JavaScript values produced by `JSON.parse` are modelled by `Js`; a numeric
literal keeps its source token (its printed form is only ever fed through
`trim`/`toUpperCase` by the handlers, so the token is an adequate stand-in
for JS float formatting).  The parser follows the JSON grammar: literals,
numbers (no leading zeros), strings with the standard escapes (a `\u`
escape denoting a lone surrogate collapses to the replacement value of
`Char.ofNat`), arrays and objects; trailing non-whitespace makes the whole
parse fail, as `JSON.parse` throws. -/

inductive Js where
  | null : Js
  | bool : Bool → Js
  | num : List Char → Js
  | str : List Char → Js
  | arr : List Js → Js
  | obj : List (List Char × Js) → Js
deriving Repr, Inhabited

def jsonWsChar (c : Char) : Bool :=
  c = ' ' || c = '\t' || c = '\n' || c = '\r'

def skipWs (cs : List Char) : List Char := cs.dropWhile jsonWsChar

def isHexChar (c : Char) : Bool :=
  c.isDigit || ('a' ≤ c && c ≤ 'f') || ('A' ≤ c && c ≤ 'F')

def hexVal (c : Char) : Nat :=
  if c.isDigit then c.toNat - 48
  else if 'a' ≤ c ∧ c ≤ 'f' then c.toNat - 87
  else c.toNat - 55

/-- The optional fraction part of a JSON number. -/
def pFrac (cs : List Char) : Option (List Char × List Char) :=
  match cs with
  | '.' :: r1 =>
    let ds := r1.takeWhile Char.isDigit
    if ds = [] then none else some ('.' :: ds, r1.dropWhile Char.isDigit)
  | _ => some ([], cs)

/-- The optional exponent part of a JSON number. -/
def pExp (cs : List Char) : Option (List Char × List Char) :=
  match cs with
  | e :: r1 =>
    if e = 'e' ∨ e = 'E' then
      let sg : List Char × List Char :=
        match r1 with
        | '+' :: r => (['+'], r)
        | '-' :: r => (['-'], r)
        | _ => ([], r1)
      let ds := sg.2.takeWhile Char.isDigit
      if ds = [] then none
      else some (e :: (sg.1 ++ ds), sg.2.dropWhile Char.isDigit)
    else some ([], cs)
  | [] => some ([], [])

/-- A JSON number token. -/
def pNumber (cs : List Char) : Option (List Char × List Char) :=
  let sp : List Char × List Char :=
    match cs with
    | '-' :: r => (['-'], r)
    | _ => ([], cs)
  let ds := sp.2.takeWhile Char.isDigit
  let r2 := sp.2.dropWhile Char.isDigit
  if ds = [] then none
  else if 1 < ds.length ∧ ds.headD '0' = '0' then none
  else do
    let fr ← pFrac r2
    let ex ← pExp fr.2
    some (sp.1 ++ ds ++ fr.1 ++ ex.1, ex.2)

/-- The body of a JSON string, after the opening quote. -/
def pStrBody : Nat → List Char → List Char → Option (List Char × List Char)
  | 0, _, _ => none
  | fuel + 1, acc, cs =>
    match cs with
    | [] => none
    | c :: rest =>
      if c = '"' then some (acc.reverse, rest)
      else if c = '\\' then
        match rest with
        | [] => none
        | e :: rest2 =>
          if e = '"' then pStrBody fuel ('"' :: acc) rest2
          else if e = '\\' then pStrBody fuel ('\\' :: acc) rest2
          else if e = '/' then pStrBody fuel ('/' :: acc) rest2
          else if e = 'b' then pStrBody fuel ('\x08' :: acc) rest2
          else if e = 'f' then pStrBody fuel ('\x0c' :: acc) rest2
          else if e = 'n' then pStrBody fuel ('\n' :: acc) rest2
          else if e = 'r' then pStrBody fuel ('\x0d' :: acc) rest2
          else if e = 't' then pStrBody fuel ('\t' :: acc) rest2
          else if e = 'u' then
            match rest2 with
            | a :: b :: c2 :: d :: rest3 =>
              if isHexChar a && isHexChar b && isHexChar c2 && isHexChar d then
                pStrBody fuel
                  (Char.ofNat
                    (((hexVal a * 16 + hexVal b) * 16 + hexVal c2) * 16 +
                      hexVal d) :: acc) rest3
              else none
            | _ => none
          else none
      else if c.toNat < 32 then none
      else pStrBody fuel (c :: acc) rest

mutual

def pVal : Nat → List Char → Option (Js × List Char)
  | 0, _ => none
  | fuel + 1, cs =>
    let t := skipWs cs
    if t.take 4 = "null".toList then some (.null, t.drop 4)
    else if t.take 4 = "true".toList then some (.bool true, t.drop 4)
    else if t.take 5 = "false".toList then
      some (.bool false, t.drop 5)
    else
      match t with
      | '"' :: rest =>
        (pStrBody (rest.length + 1) [] rest).map (fun p => (.str p.1, p.2))
      | '[' :: rest =>
        match skipWs rest with
        | ']' :: r2 => some (.arr [], r2)
        | _ => (pArrElems fuel rest).map (fun p => (.arr p.1, p.2))
      | '{' :: rest =>
        match skipWs rest with
        | '}' :: r2 => some (.obj [], r2)
        | _ => (pObjFields fuel rest).map (fun p => (.obj p.1, p.2))
      | _ => (pNumber t).map (fun p => (.num p.1, p.2))

def pArrElems : Nat → List Char → Option (List Js × List Char)
  | 0, _ => none
  | fuel + 1, cs => do
    let v ← pVal fuel cs
    match skipWs v.2 with
    | ',' :: r2 => do
      let vs ← pArrElems fuel r2
      some (v.1 :: vs.1, vs.2)
    | ']' :: r2 => some ([v.1], r2)
    | _ => none

def pObjFields : Nat → List Char → Option (List (List Char × Js) × List Char)
  | 0, _ => none
  | fuel + 1, cs =>
    match skipWs cs with
    | '"' :: rest => do
      let k ← pStrBody (rest.length + 1) [] rest
      match skipWs k.2 with
      | ':' :: r2 => do
        let v ← pVal fuel r2
        match skipWs v.2 with
        | ',' :: r4 => do
          let fs ← pObjFields fuel r4
          some ((k.1, v.1) :: fs.1, fs.2)
        | '}' :: r4 => some ([(k.1, v.1)], r4)
        | _ => none
      | _ => none
    | _ => none

end

/-- The model of `JSON.parse`: `none` when the JS call would throw. -/
def jsonParse (cs : List Char) : Option Js :=
  match pVal (2 * cs.length + 2) cs with
  | some p => if skipWs p.2 = [] then some p.1 else none
  | none => none

/-! ## Models of the other JS builtins used by the route handlers -/

/-- A `\w` character (`[A-Za-z0-9_]`), as used by `\b` word boundaries. -/
def isWordChar (c : Char) : Bool := c.isAlpha || c.isDigit || c = '_'

/-- The matches of `/\b[a-zA-Z]+\b/g` (route.ts line 143): the maximal runs
of `\w` characters that consist purely of ASCII letters (a run containing a
digit or underscore has no interior word boundary, so no part of it
matches). -/
def extractWordTokens (cs : List Char) : List (List Char) :=
  (cs.splitBy (fun a b => isWordChar a == isWordChar b)).filter
    (fun r => !r.isEmpty && r.all Char.isAlpha)

/-- A character matched by `.` (not a line terminator). -/
def dotChar (c : Char) : Bool := c ≠ '\n' && c ≠ '\x0d'

def lastCloseIdx (seg : List Char) : Option Nat :=
  match seg.reverse.findIdx? (fun c => c = ']') with
  | some k => some (seg.length - 1 - k)
  | none => none

/-- The first match of `/\[.*\]/` (part_001 line 56): the leftmost `[` that
has a `]` later on the same line, greedily extended to the last such `]`. -/
def matchBracket : List Char → Option (List Char)
  | [] => none
  | c :: rest =>
    if c = '[' then
      let seg := rest.takeWhile dotChar
      match lastCloseIdx seg with
      | some k => some ('[' :: seg.take (k + 1))
      | none => matchBracket rest
    else matchBracket rest

def decValue (ds : List Char) : Nat :=
  ds.foldl (fun acc c => acc * 10 + (c.toNat - 48)) 0

def hexValue (ds : List Char) : Nat :=
  ds.foldl (fun acc c => acc * 16 + hexVal c) 0

/-- `parseInt(s, 10)`: skip whitespace, optional sign, then the longest
decimal-digit prefix; `none` is `NaN`. -/
def jsParseInt10 (s : List Char) : Option Int :=
  let t := s.dropWhile isJsWs
  let sp : Bool × List Char :=
    match t with
    | '-' :: r => (true, r)
    | '+' :: r => (false, r)
    | _ => (false, t)
  let ds := sp.2.takeWhile Char.isDigit
  if ds = [] then none
  else some (if sp.1 then -(decValue ds : Int) else (decValue ds : Int))

/-- `parseInt(s)` with no radix argument: as `parseInt(s, 10)`, except that
a `0x`/`0X` prefix after the sign switches to hexadecimal. -/
def jsParseIntAuto (s : List Char) : Option Int :=
  let t := s.dropWhile isJsWs
  let sp : Bool × List Char :=
    match t with
    | '-' :: r => (true, r)
    | '+' :: r => (false, r)
    | _ => (false, t)
  match sp.2 with
  | '0' :: x :: r =>
    if x = 'x' ∨ x = 'X' then
      let ds := r.takeWhile isHexChar
      if ds = [] then none
      else some (if sp.1 then -(hexValue ds : Int) else (hexValue ds : Int))
    else
      let ds := sp.2.takeWhile Char.isDigit
      some (if sp.1 then -(decValue ds : Int) else (decValue ds : Int))
  | _ =>
    let ds := sp.2.takeWhile Char.isDigit
    if ds = [] then none
    else some (if sp.1 then -(decValue ds : Int) else (decValue ds : Int))

mutual

/-- `Array.prototype.join(',')` over stringified elements, where `null`
elements stringify to the empty string. -/
def jsStringArr : List Js → List Char
  | [] => []
  | [e] => jsStringElem e
  | e :: es => jsStringElem e ++ ',' :: jsStringArr es

def jsStringElem : Js → List Char
  | .null => []
  | .bool true => "true".toList
  | .bool false => "false".toList
  | .num tok => tok
  | .str s => s
  | .arr es => jsStringArr es
  | .obj _ => "[object Object]".toList

end

/-- `String(v)` for a `JSON.parse` result (numbers keep their source
token). -/
def jsStringOf : Js → List Char
  | .null => "null".toList
  | .bool true => "true".toList
  | .bool false => "false".toList
  | .num tok => tok
  | .str s => s
  | .arr es => jsStringArr es
  | .obj _ => "[object Object]".toList

/-- route.ts lines 157-159: `typeof word === 'string' ?
word.trim().toUpperCase() : String(word).trim().toUpperCase()`. -/
def normalizeElem (v : Js) : List Char :=
  match v with
  | .str s => jsToUpper (jsTrim s)
  | _ => jsToUpper (jsTrim (jsStringOf v))

/-! ## The two GET handlers -/

/-- The observable parts of a handler response: status, the JSON body
fields (`words`, `error`, `message`, `retryAfter`), the `X-RateLimit-*`
headers, and whether the OpenAI generator was invoked while producing it. -/
structure GenResponse where
  status : Nat
  words : Option (List (List Char))
  error : Option (List Char)
  message : Option (List Char)
  retryAfter : Option Nat
  hasRateHeaders : Bool
  headerLimit : Option Nat
  headerRemaining : Option Nat
  headerReset : Option Nat
  invokedGenerator : Bool
deriving Repr, DecidableEq

/-- `searchParams.get('length') || '5'` (the empty string is falsy). -/
def orDefault5 (lp : Option (List Char)) : List Char :=
  match lp with
  | none => ['5']
  | some s => if s = [] then ['5'] else s

/-- The `length` value of route.ts line 106. -/
def routeLen (lp : Option (List Char)) : Option Int :=
  jsParseIntAuto (orDefault5 lp)

/-- The `words` value after route.ts's try/catch around `JSON.parse`
(lines 138-149): the parsed value on success, else the bare-word-token
fallback when at least `length` tokens exist; `none` models the re-thrown
parse error (note `wordMatches.length >= length` is false when `length` is
`NaN`). -/
def routeParseWords (len : Option Int) (cs : List Char) : Option Js :=
  match jsonParse cs with
  | some v => some v
  | none =>
    match len with
    | none => none
    | some L =>
      let toks := extractWordTokens cs
      if L ≤ (toks.length : Int) then
        some (.arr ((toks.take L.toNat).map .str))
      else none

/-- The catch-all 500 response of route.ts lines 163-174. -/
def err500route : GenResponse :=
  { status := 500
    words := none
    error := some "Failed to generate word chain".toList
    message := some "Please try again in a moment.".toList
    retryAfter := none
    hasRateHeaders := false
    headerLimit := none
    headerRemaining := none
    headerReset := none
    invokedGenerator := true }

/-- The generation phase of route.ts (lines 116-161), entered after rate
limiting and validation; the generator has been invoked, and `content` is
the completion text (`none` when the call failed or returned nothing). -/
def routeGen (len : Option Int) (content : Option (List Char))
    (meta : RateCheck) : GenResponse :=
  match content with
  | none => err500route
  | some cs =>
    match routeParseWords len cs with
    | none => err500route
    | some v =>
      match v with
      | .arr es =>
        if len = some (es.length : Int) then
          { status := 200
            words := some (es.map normalizeElem)
            error := none
            message := none
            retryAfter := none
            hasRateHeaders := true
            headerLimit := some maxRequests
            headerRemaining := some meta.remaining
            headerReset := some meta.resetTime
            invokedGenerator := true }
        else err500route
      | _ => err500route

def natToChars (n : Nat) : List Char := (Nat.repr n).toList

/-- The 429 response of route.ts lines 90-103 (`retryAfter` is
`Math.ceil((resetTime - Date.now()) / 60000)`). -/
def rateLimited429 (now : Nat) (chk : RateCheck) : GenResponse :=
  { status := 429
    words := none
    error := some "Rate limit exceeded".toList
    message := some ("Too many requests. Please try again in ".toList ++
      natToChars ((chk.resetTime - now + 59999) / 60000) ++
      " minutes.".toList)
    retryAfter := some ((chk.resetTime - now + 59999) / 60000)
    hasRateHeaders := true
    headerLimit := some maxRequests
    headerRemaining := some chk.remaining
    headerReset := some chk.resetTime
    invokedGenerator := false }

/-- The 400 response of route.ts lines 110-114. -/
def invalidLen400 (chk : RateCheck) : GenResponse :=
  { status := 400
    words := none
    error := some "Invalid length. Must be between 3 and 8.".toList
    message := none
    retryAfter := none
    hasRateHeaders := true
    headerLimit := some maxRequests
    headerRemaining := some chk.remaining
    headerReset := some chk.resetTime
    invokedGenerator := false }

/-- GET of route.ts (lines 77-175): rate limit check, `length` validation
(note an unparsable `length` is `NaN`, and `NaN < 3 || NaN > 8` is false),
then generation.  `rl` is the caller's current rate record and `now` is
`Date.now()`. -/
def GET_route (rl : Option RateRecord) (now : Nat) (lp : Option (List Char))
    (content : Option (List Char)) : GenResponse :=
  if (checkRateLimit now rl).1.allowed = false then
    rateLimited429 now (checkRateLimit now rl).1
  else
    match routeLen lp with
    | some L =>
      if L < 3 ∨ 8 < L then invalidLen400 (checkRateLimit now rl).1
      else routeGen (some L) content (checkRateLimit now rl).1
    | none => routeGen none content (checkRateLimit now rl).1

/-- A headerless body-only response, as part_001 produces. -/
def plainResponse (st : Nat) (err : Option (List Char)) (invoked : Bool) :
    GenResponse :=
  { status := st
    words := none
    error := err
    message := none
    retryAfter := none
    hasRateHeaders := false
    headerLimit := none
    headerRemaining := none
    headerReset := none
    invokedGenerator := invoked }

/-- `lengthParam ? parseInt(lengthParam, 10) : 5` of part_001 line 14
(`none` is `NaN`). -/
def v1Len (lp : Option (List Char)) : Option Int :=
  match lp with
  | none => some 5
  | some s => if s = [] then some 5 else jsParseInt10 s

/-- `word => typeof word === 'string' && word.trim().length > 0`. -/
def isNonemptyStr (e : Js) : Bool :=
  match e with
  | .str s => decide (jsTrim s ≠ [])
  | _ => false

def strVal (e : Js) : List Char :=
  match e with
  | .str s => s
  | _ => []

/-- GET of the unnamed source file `part_001`: validates `length`
(rejecting `NaN`), requires the API key, then extracts an embedded
`[...]` substring, parses it, and returns the words verbatim when they are
exactly `length` non-empty strings. -/
def GET_v1 (hasKey : Bool) (lp : Option (List Char))
    (content : Option (List Char)) : GenResponse :=
  match v1Len lp with
  | none =>
    plainResponse 400 (some "Length must be a number between 2 and 20".toList)
      false
  | some L =>
    if L < 2 ∨ 20 < L then
      plainResponse 400
        (some "Length must be a number between 2 and 20".toList) false
    else if hasKey = false then
      plainResponse 500 (some "OpenAI API key not configured".toList) false
    else
      match content with
      | none => plainResponse 500 (some "Word chain generation failed".toList)
          true
      | some cs =>
        match matchBracket cs with
        | none => plainResponse 500
            (some "Word chain generation failed".toList) true
        | some sub =>
          match jsonParse sub with
          | some (.arr es) =>
            if (es.length : Int) = L ∧ es.all isNonemptyStr then
              { status := 200
                words := some (es.map strVal)
                error := none
                message := none
                retryAfter := none
                hasRateHeaders := false
                headerLimit := none
                headerRemaining := none
                headerReset := none
                invokedGenerator := true }
            else plainResponse 500
              (some "Word chain generation failed".toList) true
          | _ => plainResponse 500
              (some "Word chain generation failed".toList) true

/-! ### Normalization lemmas: outputs of `trim().toUpperCase()` are
trimmed and uppercase -/

theorem toNat_ofNat_valid (n : Nat) (h : n.isValidChar) :
    (Char.ofNat n).toNat = n := by
  simp [Char.ofNat, h, Char.ofNatAux, Char.toNat, UInt32.toNat,
    BitVec.toNat_ofNatLt]

theorem toUpper_toNat (c : Char) :
    (Char.toUpper c).toNat =
      if 97 ≤ c.toNat ∧ c.toNat ≤ 122 then c.toNat - 32 else c.toNat := by
  unfold Char.toUpper
  split
  next h =>
    rw [if_pos (by omega)]
    exact toNat_ofNat_valid _ (Or.inl (by omega))
  next h =>
    rw [if_neg (by omega)]

theorem toUpper_eq_of_not_lower (c : Char)
    (h : ¬(97 ≤ c.toNat ∧ c.toNat ≤ 122)) : c.toUpper = c := by
  show (if c.toNat ≥ 97 ∧ c.toNat ≤ 122 then Char.ofNat (c.toNat - 32) else c)
    = c
  rw [if_neg (by omega)]

theorem toUpper_toUpper (c : Char) : c.toUpper.toUpper = c.toUpper := by
  apply toUpper_eq_of_not_lower
  have h := toUpper_toNat c
  by_cases hc : 97 ≤ c.toNat ∧ c.toNat ≤ 122
  · rw [if_pos hc] at h
    omega
  · rw [if_neg hc] at h
    omega

theorem isJsWs_toUpper (c : Char) : isJsWs c.toUpper = isJsWs c := by
  have h := toUpper_toNat c
  unfold isJsWs
  rw [decide_eq_decide]
  by_cases hc : 97 ≤ c.toNat ∧ c.toNat ≤ 122
  · rw [if_pos hc] at h
    omega
  · rw [if_neg hc] at h
    omega

theorem jsToUpper_idem (s : List Char) :
    jsToUpper (jsToUpper s) = jsToUpper s := by
  unfold jsToUpper
  rw [List.map_map]
  apply List.map_congr_left
  intro a _
  simp only [Function.comp_apply]
  exact toUpper_toUpper a

theorem jsTrim_jsToUpper_comm (s : List Char) :
    jsTrim (jsToUpper s) = jsToUpper (jsTrim s) := by
  have hp : (isJsWs ∘ Char.toUpper) = isJsWs := funext fun c => isJsWs_toUpper c
  simp only [jsTrim, jsToUpper, List.dropWhile_map, ← List.map_reverse, hp]

theorem dropWhile_head_not (p : Char → Bool) (l : List Char) (a : Char)
    (t : List Char) (h : l.dropWhile p = a :: t) : p a = false := by
  induction l with
  | nil => simp at h
  | cons b l ih =>
    rw [List.dropWhile_cons] at h
    by_cases hb : p b = true
    · rw [if_pos hb] at h
      exact ih h
    · rw [if_neg hb] at h
      obtain ⟨rfl, -⟩ := List.cons.inj h
      simpa using hb

theorem jsTrim_eq_rdrop (s : List Char) :
    jsTrim s = List.rdropWhile isJsWs (s.dropWhile isJsWs) := rfl

theorem jsTrim_idem (s : List Char) : jsTrim (jsTrim s) = jsTrim s := by
  have hd : (jsTrim s).dropWhile isJsWs = jsTrim s := by
    cases hh : jsTrim s with
    | nil => simp
    | cons a t =>
      rw [jsTrim_eq_rdrop] at hh
      obtain ⟨r, hr⟩ :=
        List.rdropWhile_prefix isJsWs (s.dropWhile isJsWs)
      rw [hh] at hr
      have ha : isJsWs a = false :=
        dropWhile_head_not isJsWs s a (t ++ r) (by rw [← hr]; rfl)
      rw [List.dropWhile_cons, if_neg (by simp [ha])]
  rw [jsTrim_eq_rdrop (jsTrim s), hd, jsTrim_eq_rdrop s,
    List.rdropWhile_idempotent]

theorem upper_of_trim_trimmed (x : List Char) :
    jsTrim (jsToUpper (jsTrim x)) = jsToUpper (jsTrim x) := by
  rw [jsTrim_jsToUpper_comm, jsTrim_idem]

theorem normalizeElem_trimmed (v : Js) :
    jsTrim (normalizeElem v) = normalizeElem v := by
  cases v <;> exact upper_of_trim_trimmed _

theorem normalizeElem_upper (v : Js) :
    jsToUpper (normalizeElem v) = normalizeElem v := by
  cases v <;> exact jsToUpper_idem _

/-! ### Shape of the 200 responses -/

theorem routeGen_200 (len : Option Int) (content : Option (List Char))
    (meta : RateCheck) (h : (routeGen len content meta).status = 200) :
    ∃ es : List Js, len = some (es.length : Int) ∧
      routeGen len content meta =
        { status := 200
          words := some (es.map normalizeElem)
          error := none
          message := none
          retryAfter := none
          hasRateHeaders := true
          headerLimit := some maxRequests
          headerRemaining := some meta.remaining
          headerReset := some meta.resetTime
          invokedGenerator := true } := by
  unfold routeGen at h ⊢
  split at h
  · simp [err500route] at h
  · split at h
    · simp [err500route] at h
    next cs v hv =>
      split at h
      next es =>
        split at h
        next hlen =>
          exact ⟨es, hlen, by rw [if_pos hlen]⟩
        next => simp [err500route] at h
      next hne => simp [err500route] at h

theorem GET_route_200_shape (rl : Option RateRecord) (now : Nat)
    (lp content : Option (List Char))
    (h : (GET_route rl now lp content).status = 200) :
    ∃ (L : Int) (es : List Js),
      routeLen lp = some L ∧ 3 ≤ L ∧ L ≤ 8 ∧ L = (es.length : Int) ∧
      GET_route rl now lp content =
        { status := 200
          words := some (es.map normalizeElem)
          error := none
          message := none
          retryAfter := none
          hasRateHeaders := true
          headerLimit := some maxRequests
          headerRemaining := some (checkRateLimit now rl).1.remaining
          headerReset := some (checkRateLimit now rl).1.resetTime
          invokedGenerator := true } := by
  revert h
  unfold GET_route
  split
  · intro h
    simp [rateLimited429] at h
  split
  next x L hL =>
    split
    · intro h
      simp [invalidLen400] at h
    next hbounds =>
      intro h
      obtain ⟨es, hlen, heq⟩ := routeGen_200 _ _ _ h
      obtain rfl : L = (es.length : Int) := Option.some.inj hlen
      exact ⟨(es.length : Int), es, hL, by omega, by omega, rfl, heq⟩
  next x hL =>
    intro h
    obtain ⟨es, hlen, heq⟩ := routeGen_200 _ _ _ h
    exact absurd hlen (by simp)

theorem GET_v1_200_shape (hasKey : Bool) (lp content : Option (List Char))
    (h : (GET_v1 hasKey lp content).status = 200) :
    ∃ (L : Int) (es : List Js),
      v1Len lp = some L ∧ 2 ≤ L ∧ L ≤ 20 ∧ (es.length : Int) = L ∧
      es.all isNonemptyStr = true ∧
      GET_v1 hasKey lp content =
        { status := 200
          words := some (es.map strVal)
          error := none
          message := none
          retryAfter := none
          hasRateHeaders := false
          headerLimit := none
          headerRemaining := none
          headerReset := none
          invokedGenerator := true } := by
  revert h
  unfold GET_v1
  split
  · intro h
    simp [plainResponse] at h
  next L hL =>
    split
    · intro h
      simp [plainResponse] at h
    next hbounds =>
      split
      · intro h
        simp [plainResponse] at h
      next hkey =>
        split
        · intro h
          simp [plainResponse] at h
        next cs =>
          split
          · intro h
            simp [plainResponse] at h
          next sub hsub =>
            split
            next es hjs =>
              split
              next hcond =>
                intro h
                exact ⟨L, es, hL, by omega, by omega, hcond.1,
                  by simpa using hcond.2, rfl⟩
              next =>
                intro h
                simp [plainResponse] at h
            next =>
              intro h
              simp [plainResponse] at h

/-- C3 counterexample: the named route accepts a generator answer whose
words are empty strings and returns them with 200 (so "non-empty" fails),
and the `part_001` variant returns lowercase words verbatim with 200 (so
"entirely uppercase" fails there). -/
theorem generation_words_counterexample :
    (GET_route none 0 (some ['3']) (some "[\"\",\"\",\"\"]".toList)).status =
      200 ∧
    (GET_route none 0 (some ['3']) (some "[\"\",\"\",\"\"]".toList)).words =
      some [[], [], []] ∧
    ¬(∀ w ∈ ([[], [], []] : List (List Char)), w ≠ []) ∧
    (GET_v1 true (some ['2']) (some "[\"ab\",\"cd\"]".toList)).status = 200 ∧
    (GET_v1 true (some ['2']) (some "[\"ab\",\"cd\"]".toList)).words =
      some ["ab".toList, "cd".toList] ∧
    jsToUpper "ab".toList ≠ "ab".toList := by
  refine ⟨by decide, by decide, by decide, by decide, by decide, by decide⟩

/-- C3 amended: a 200 response of the named route carries exactly `length`
words, each trimmed and uppercase (but possibly empty); a 200 response of
the `part_001` variant carries exactly `length` non-empty words (but not
uppercased). -/
theorem generation_words_amended :
    (∀ (rl : Option RateRecord) (now : Nat) (lp content : Option (List Char)),
      (GET_route rl now lp content).status = 200 →
      ∃ (L : Int) (ws : List (List Char)),
        routeLen lp = some L ∧ 3 ≤ L ∧ L ≤ 8 ∧
        (GET_route rl now lp content).words = some ws ∧
        (ws.length : Int) = L ∧
        ∀ w ∈ ws, jsTrim w = w ∧ jsToUpper w = w) ∧
    (∀ (hasKey : Bool) (lp content : Option (List Char)),
      (GET_v1 hasKey lp content).status = 200 →
      ∃ (L : Int) (ws : List (List Char)),
        v1Len lp = some L ∧ 2 ≤ L ∧ L ≤ 20 ∧
        (GET_v1 hasKey lp content).words = some ws ∧
        (ws.length : Int) = L ∧
        ∀ w ∈ ws, jsTrim w ≠ []) := by
  constructor
  · intro rl now lp content h
    obtain ⟨L, es, hlp, h3, h8, hLlen, heq⟩ := GET_route_200_shape rl now lp content h
    refine ⟨L, es.map normalizeElem, hlp, h3, h8, by rw [heq], ?_, ?_⟩
    · simpa using hLlen.symm
    · intro w hw
      obtain ⟨e, he, rfl⟩ := List.mem_map.mp hw
      exact ⟨normalizeElem_trimmed e, normalizeElem_upper e⟩
  · intro hasKey lp content h
    obtain ⟨L, es, hlp, h2, h20, hlen, hall, heq⟩ :=
      GET_v1_200_shape hasKey lp content h
    refine ⟨L, es.map strVal, hlp, h2, h20, by rw [heq], by simpa using hlen, ?_⟩
    intro w hw
    obtain ⟨e, he, rfl⟩ := List.mem_map.mp hw
    have := (List.all_eq_true.mp hall) e he
    unfold isNonemptyStr at this
    unfold strVal
    split at this
    next s =>
      simpa using this
    next => simp at this

/-- Witness for `generation_words_amended`: a concrete 200 response of each
handler. -/
theorem generation_words_amended_witness :
    (∃ (L : Int) (ws : List (List Char)),
      routeLen (some ['3']) = some L ∧ 3 ≤ L ∧ L ≤ 8 ∧
      (GET_route none 0 (some ['3'])
        (some "[\"go\",\"od\",\"x\"]".toList)).words = some ws ∧
      (ws.length : Int) = L ∧
      ∀ w ∈ ws, jsTrim w = w ∧ jsToUpper w = w) ∧
    (∃ (L : Int) (ws : List (List Char)),
      v1Len (some ['2']) = some L ∧ 2 ≤ L ∧ L ≤ 20 ∧
      (GET_v1 true (some ['2']) (some "[\"ab\",\"cd\"]".toList)).words =
        some ws ∧
      (ws.length : Int) = L ∧
      ∀ w ∈ ws, jsTrim w ≠ []) :=
  ⟨generation_words_amended.1 none 0 (some ['3'])
      (some "[\"go\",\"od\",\"x\"]".toList) (by decide),
    generation_words_amended.2 true (some ['2'])
      (some "[\"ab\",\"cd\"]".toList) (by decide)⟩

/-- C4 counterexample: in route.ts a non-numeric `length` parses to `NaN`,
which passes the `length < 3 || length > 8` check, so the generator IS
invoked and the eventual failure surfaces as 500, not 400; and a
rate-limited out-of-bounds request gets 429, not 400. -/
theorem validation_counterexample :
    (GET_route none 0 (some "abc".toList) none).status = 500 ∧
    (GET_route none 0 (some "abc".toList) none).status ≠ 400 ∧
    (GET_route none 0 (some "abc".toList) none).invokedGenerator = true ∧
    (GET_route (some ⟨10, 100⟩) 50 (some "99".toList) none).status = 429 ∧
    (GET_route (some ⟨10, 100⟩) 50 (some "99".toList) none).status ≠ 400 := by
  refine ⟨by decide, by decide, by decide, by decide, by decide⟩

/-- C4 amended: a not-rate-limited request whose `length` parses to a
number outside the bounds gets 400 with an `error` field and no generator
call; the part_001 variant additionally rejects non-numeric `length` (and
its own out-of-bounds range [2,20]) the same way.  route.ts does NOT
reject a non-numeric `length` (see the counterexample). -/
theorem validation_amended :
    (∀ (rl : Option RateRecord) (now : Nat) (lp content : Option (List Char))
      (L : Int), (checkRateLimit now rl).1.allowed = true →
      routeLen lp = some L → L < 3 ∨ 8 < L →
      (GET_route rl now lp content).status = 400 ∧
      (GET_route rl now lp content).error ≠ none ∧
      (GET_route rl now lp content).invokedGenerator = false) ∧
    (∀ (hasKey : Bool) (lp content : Option (List Char)),
      (v1Len lp = none ∨ ∃ L : Int, v1Len lp = some L ∧ (L < 2 ∨ 20 < L)) →
      (GET_v1 hasKey lp content).status = 400 ∧
      (GET_v1 hasKey lp content).error ≠ none ∧
      (GET_v1 hasKey lp content).invokedGenerator = false) := by
  constructor
  · intro rl now lp content L hallow hlen hbounds
    unfold GET_route
    rw [if_neg (by simp [hallow])]
    simp only [hlen]
    rw [if_pos hbounds]
    exact ⟨rfl, by simp [invalidLen400], rfl⟩
  · intro hasKey lp content hbad
    unfold GET_v1
    rcases hbad with hnone | ⟨L, hL, hbounds⟩
    · simp only [hnone]
      exact ⟨rfl, by simp [plainResponse], rfl⟩
    · simp only [hL]
      rw [if_pos hbounds]
      exact ⟨rfl, by simp [plainResponse], rfl⟩

/-- Witness for `validation_amended`: `length=99` at route.ts and the
non-numeric `length=abc` at the part_001 variant. -/
theorem validation_amended_witness :
    ((GET_route none 0 (some "99".toList) none).status = 400 ∧
      (GET_route none 0 (some "99".toList) none).error ≠ none ∧
      (GET_route none 0 (some "99".toList) none).invokedGenerator = false) ∧
    ((GET_v1 true (some "abc".toList) none).status = 400 ∧
      (GET_v1 true (some "abc".toList) none).error ≠ none ∧
      (GET_v1 true (some "abc".toList) none).invokedGenerator = false) :=
  ⟨validation_amended.1 none 0 (some "99".toList) none 99 (by decide)
      (by decide) (by decide),
    validation_amended.2 true (some "abc".toList) none (Or.inl (by decide))⟩

/-- C9: a rate-limited request gets a 429 whose body carries `error`,
`message` and `retryAfter`, where `retryAfter` is the remaining window time
rounded up to a whole minute (characterized by the two bracketing
inequalities), plus the three `X-RateLimit-*` headers; and every 200
response carries the headers too. -/
theorem rate_headers_claim (r : RateRecord) (now : Nat)
    (lp content : Option (List Char))
    (hc : maxRequests ≤ r.count) (ht : now < r.resetTime) :
    (GET_route (some r) now lp content).status = 429 ∧
    (GET_route (some r) now lp content).error ≠ none ∧
    (GET_route (some r) now lp content).message ≠ none ∧
    (∃ q : Nat, (GET_route (some r) now lp content).retryAfter = some q ∧
      1 ≤ q ∧ (q - 1) * 60000 < r.resetTime - now ∧
      r.resetTime - now ≤ q * 60000) ∧
    (GET_route (some r) now lp content).hasRateHeaders = true ∧
    (GET_route (some r) now lp content).headerLimit = some maxRequests ∧
    (GET_route (some r) now lp content).headerRemaining = some 0 ∧
    (GET_route (some r) now lp content).headerReset = some r.resetTime ∧
    (∀ (rl2 : Option RateRecord) (now2 : Nat) (lp2 c2 : Option (List Char)),
      (GET_route rl2 now2 lp2 c2).status = 200 →
      (GET_route rl2 now2 lp2 c2).hasRateHeaders = true ∧
      (GET_route rl2 now2 lp2 c2).headerLimit = some maxRequests ∧
      (GET_route rl2 now2 lp2 c2).headerRemaining ≠ none ∧
      (GET_route rl2 now2 lp2 c2).headerReset ≠ none) := by
  have hrej := checkRateLimit_reject now r ht hc
  have hG : GET_route (some r) now lp content =
      rateLimited429 now ⟨false, 0, r.resetTime⟩ := by
    unfold GET_route
    rw [hrej]
    rfl
  rw [hG]
  refine ⟨rfl, by simp [rateLimited429], by simp [rateLimited429], ?_, rfl,
    rfl, rfl, rfl, ?_⟩
  · have hdm := Nat.div_add_mod (r.resetTime - now + 59999) 60000
    have hm : (r.resetTime - now + 59999) % 60000 < 60000 :=
      Nat.mod_lt _ (by norm_num)
    exact ⟨(r.resetTime - now + 59999) / 60000, rfl, by omega, by omega,
      by omega⟩
  · intro rl2 now2 lp2 c2 h200
    obtain ⟨L, es, -, -, -, -, heq⟩ := GET_route_200_shape rl2 now2 lp2 c2 h200
    rw [heq]
    exact ⟨rfl, rfl, by simp, by simp⟩

/-- Witness for `rate_headers_claim`: a caller at the cap with 60 seconds
of window left is told to retry after 1 minute. -/
theorem rate_headers_claim_witness :
    (GET_route (some ⟨10, 60000⟩) 0 none none).status = 429 ∧
    (GET_route (some ⟨10, 60000⟩) 0 none none).error ≠ none ∧
    (GET_route (some ⟨10, 60000⟩) 0 none none).message ≠ none ∧
    (∃ q : Nat, (GET_route (some ⟨10, 60000⟩) 0 none none).retryAfter =
        some q ∧ 1 ≤ q ∧ (q - 1) * 60000 < 60000 - 0 ∧
      60000 - 0 ≤ q * 60000) ∧
    (GET_route (some ⟨10, 60000⟩) 0 none none).hasRateHeaders = true ∧
    (GET_route (some ⟨10, 60000⟩) 0 none none).headerLimit =
      some maxRequests ∧
    (GET_route (some ⟨10, 60000⟩) 0 none none).headerRemaining = some 0 ∧
    (GET_route (some ⟨10, 60000⟩) 0 none none).headerReset = some 60000 ∧
    (∀ (rl2 : Option RateRecord) (now2 : Nat) (lp2 c2 : Option (List Char)),
      (GET_route rl2 now2 lp2 c2).status = 200 →
      (GET_route rl2 now2 lp2 c2).hasRateHeaders = true ∧
      (GET_route rl2 now2 lp2 c2).headerLimit = some maxRequests ∧
      (GET_route rl2 now2 lp2 c2).headerRemaining ≠ none ∧
      (GET_route rl2 now2 lp2 c2).headerReset ≠ none) :=
  rate_headers_claim ⟨10, 60000⟩ 0 none none (by decide) (by decide)

/-! ### C8: the parse fallback chain -/

/-- Modelled from the spec (§4.1 output validation, stage (c)): extract
bare word tokens from the text and take the first `length` of them if at
least that many exist. -/
def specStageC (len : Nat) (cs : List Char) : Option (List Js) :=
  if len ≤ (extractWordTokens cs).length then
    some (((extractWordTokens cs).take len).map .str)
  else none

/-- Modelled from the spec (§4.1 output validation / §9): the ordered
fallback chain — (a) direct structured parse of the entire response;
on failure (b) locate an embedded array-like substring by pattern match
and parse that; on failure (c) bare word tokens.  `none` when every stage
fails (a generation error). -/
def specParseChain (len : Nat) (cs : List Char) : Option (List Js) :=
  match jsonParse cs with
  | some (.arr es) => some es
  | _ =>
    match matchBracket cs with
    | some sub =>
      match jsonParse sub with
      | some (.arr es) => some es
      | _ => specStageC len cs
    | none => specStageC len cs

def chainDemo : List Char := "x [\"ab\",\"cd\",\"ef\"]".toList

/-- C8 counterexample: on a response with an embedded array after stray
text, the spec's chain takes stage (b) and yields the embedded words
(AB, CD, EF after normalization), but route.ts has no stage (b): it falls
from the failed direct parse straight to bare tokens and returns
X, AB, CD. -/
theorem parse_chain_counterexample :
    (specParseChain 3 chainDemo).map (fun es => es.map normalizeElem) =
      some ["AB".toList, "CD".toList, "EF".toList] ∧
    (GET_route none 0 (some ['3']) (some chainDemo)).status = 200 ∧
    (GET_route none 0 (some ['3']) (some chainDemo)).words =
      some ["X".toList, "AB".toList, "CD".toList] ∧
    (some ["X".toList, "AB".toList, "CD".toList] :
        Option (List (List Char))) ≠
      some ["AB".toList, "CD".toList, "EF".toList] := by
  refine ⟨by decide, by decide, by decide, by decide⟩

theorem routeGen_status (len : Option Int) (content : Option (List Char))
    (meta : RateCheck) :
    (routeGen len content meta).status = 200 ∨
    (routeGen len content meta).status = 500 := by
  unfold routeGen
  split
  · right
    rfl
  split
  · right
    rfl
  split
  next es =>
    split
    · left
      rfl
    · right
      rfl
  next => right
          rfl

/-- C8 amended: route.ts's actual policy is a two-stage chain — (a) direct
`JSON.parse` of the whole response; on parse failure (c) bare word tokens,
taking the first `length` when at least `length` exist; there is no
embedded-array stage.  Exhaustion (or a parse result that is not an array
of exactly `length` elements) is a 500 generation error, never a
validation or rate-limit error. -/
theorem parse_chain_amended (rl : Option RateRecord) (now : Nat)
    (lp : Option (List Char)) (content : List Char) (L : Int)
    (hallow : (checkRateLimit now rl).1.allowed = true)
    (hlen : routeLen lp = some L) (hL1 : 3 ≤ L) (hL2 : L ≤ 8) :
    (jsonParse content = none →
      L ≤ ((extractWordTokens content).length : Int) →
      (GET_route rl now lp (some content)).status = 200 ∧
      (GET_route rl now lp (some content)).words =
        some (((extractWordTokens content).take L.toNat).map
          (fun t => jsToUpper (jsTrim t)))) ∧
    (jsonParse content = none →
      ((extractWordTokens content).length : Int) < L →
      (GET_route rl now lp (some content)).status = 500 ∧
      (GET_route rl now lp (some content)).error ≠ none) ∧
    (∀ es : List Js, jsonParse content = some (.arr es) →
      (es.length : Int) = L →
      (GET_route rl now lp (some content)).status = 200 ∧
      (GET_route rl now lp (some content)).words =
        some (es.map normalizeElem)) ∧
    (∀ es : List Js, jsonParse content = some (.arr es) →
      (es.length : Int) ≠ L →
      (GET_route rl now lp (some content)).status = 500) ∧
    (∀ v : Js, jsonParse content = some v → (∀ es, v ≠ Js.arr es) →
      (GET_route rl now lp (some content)).status = 500) ∧
    (GET_route rl now lp (some content)).status ≠ 400 ∧
    (GET_route rl now lp (some content)).status ≠ 429 := by
  have hG : GET_route rl now lp (some content) =
      routeGen (some L) (some content) (checkRateLimit now rl).1 := by
    unfold GET_route
    rw [if_neg (by simp [hallow])]
    simp only [hlen]
    rw [if_neg (by omega)]
  rw [hG]
  refine ⟨?_, ?_, ?_, ?_, ?_, ?_, ?_⟩
  · intro hpn htok
    have htok2 : L.toNat ≤ (extractWordTokens content).length := by omega
    have hlen2 : (((extractWordTokens content).take L.toNat).map
        (Js.str)).length = L.toNat := by
      simp [List.length_take, Nat.min_eq_left htok2]
    unfold routeGen routeParseWords
    simp only [hpn]
    rw [if_pos htok]
    dsimp only
    rw [if_pos (by
      rw [hlen2, Int.toNat_of_nonneg (by omega : (0 : Int) ≤ L)])]
    refine ⟨rfl, ?_⟩
    simp only [List.map_map]
    rfl
  · intro hpn htok
    unfold routeGen routeParseWords
    simp only [hpn]
    rw [if_neg (by omega)]
    exact ⟨rfl, by simp [err500route]⟩
  · intro es hpe hlen2
    unfold routeGen routeParseWords
    simp only [hpe]
    rw [if_pos (by rw [hlen2])]
    exact ⟨rfl, rfl⟩
  · intro es hpe hlen2
    unfold routeGen routeParseWords
    simp only [hpe]
    rw [if_neg (by simpa using fun hh => hlen2 hh.symm)]
    rfl
  · intro v hpe hnotarr
    unfold routeGen routeParseWords
    simp only [hpe]
    cases v with
    | arr es => exact absurd rfl (hnotarr es)
    | null => rfl
    | bool b => rfl
    | num t => rfl
    | str s => rfl
    | obj fs => rfl
  · rcases routeGen_status (some L) (some content) (checkRateLimit now rl).1
      with h | h <;> omega
  · rcases routeGen_status (some L) (some content) (checkRateLimit now rl).1
      with h | h <;> omega

/-- Witness for `parse_chain_amended`: the token fallback at a concrete
unparsable response. -/
theorem parse_chain_amended_witness :
    (GET_route none 0 (some ['3']) (some chainDemo)).status = 200 ∧
    (GET_route none 0 (some ['3']) (some chainDemo)).words =
      some (((extractWordTokens chainDemo).take (3 : Int).toNat).map
        (fun t => jsToUpper (jsTrim t))) :=
  (parse_chain_amended none 0 (some ['3']) chainDemo 3 (by decide)
    (by decide) (by decide) (by decide)).1 (by rfl) (by decide)

end WordChain
